import Mathlib

/-!
Verification of the hydraulic network solver (`Calculations` class,
`src/lib/calculations.ts`) of the siphonicad repository.

The solver is a pure pipeline over an ordered list of typed components:

  canonical copy (+ per-pipe verticality)
    → fillTee → fillCapacity → fillDiameter
    → splitByOutlet → insertReducersForDiameterChanges
    → preNormalize → normalize

All JavaScript numbers are modelled as rationals (`ℚ`).  The three
transcendental primitives the evaluator uses (`Math.PI`, `Math.log`,
`Math.pow (·) 0.9`) are threaded as an abstract structure `MathPrims`:
every theorem below holds for an arbitrary interpretation of those
primitives, so nothing proved here depends on their values.  JavaScript
division by zero (NaN/∞) never occurs on the code paths the theorems
talk about because the source guards every such division; the model
therefore uses Lean's total division.
-/

namespace Calculations

/-- Mirror of the TS discriminated-union tag `component: "node" | "edge"`. -/
inductive CompKind where
  | node : CompKind
  | edge : CompKind
deriving DecidableEq

/-- Mirror of the TS `EquationsComponent` record.  Optional / nullable
fields become `Option`; `null` and `undefined` are both `none` (the
source only ever distinguishes them via `== null` / `?? ` / `typeof`
checks, which all identify the two). -/
structure EquationsComponent where
  component : CompKind
  id : Int
  type : Option String := none
  fromId : Option Int := none
  toId : Option Int := none
  x : Option ℚ := none
  y : Option ℚ := none
  diameter : Option ℚ := none
  length : Option ℚ := none
  capacity : Option ℚ := none
  tee_ref : Option Int := none
  draw_index : Option Int := none
  vertical : Option Bool := none
deriving DecidableEq

/-- Default component used to totalize list indexing (`getD`); the code
paths we index are always in range, so the default is never observed by
a proved theorem except through explicit bounds. -/
def dfltEC : EquationsComponent :=
  { component := CompKind.node, id := -1 }

instance : Inhabited EquationsComponent := ⟨dfltEC⟩

/-- Mirror of the TS `EquationRow`.  In the source most fields are
optional, but `preNormalize` always populates every one of them and
`normalize` is only ever invoked on `preNormalize` output, so the
model makes them total (each `?? 0` in `normalize` therefore reads the
value `preNormalize` wrote). -/
structure EquationRow where
  index : Int
  item : String
  Q : ℚ
  d : ℚ
  L : ℚ
  vertical : Bool
  elbow : ℚ
  reducer : Bool
  t90 : ℚ
  d90 : ℚ
  q90 : ℚ
  di : ℚ
  V : ℚ
  h : ℚ
  Re : ℚ
  f : ℚ
  a : ℚ
  ktee : ℚ
  kred : ℚ
  ktotal : ℚ
  vp : ℚ
  delta_H : ℚ
  delta_P : ℚ
deriving DecidableEq

def dfltRow : EquationRow :=
  { index := 0, item := "", Q := 0, d := 0, L := 0, vertical := false,
    elbow := 0, reducer := false, t90 := 0, d90 := 0, q90 := 0, di := 0,
    V := 0, h := 0, Re := 0, f := 0, a := 0, ktee := 0, kred := 0,
    ktotal := 0, vp := 0, delta_H := 0, delta_P := 0 }

instance : Inhabited EquationRow := ⟨dfltRow⟩

/-- Abstract interpretations of the transcendental JS primitives used by
the evaluator: `Math.PI`, `Math.log`, and `Math.pow (·) 0.9`. -/
structure MathPrims where
  pi : ℚ
  log : ℚ → ℚ
  pow09 : ℚ → ℚ

/-- A trivial interpretation, used only to instantiate theorems at
concrete inputs (none of the proved statements depend on it). -/
def M0 : MathPrims := ⟨0, fun _ => 0, fun _ => 0⟩

/-! ### Diameter fill (`fillDiameter`) -/

/-- One step of the running-diameter update: a `pipe` with an explicit
diameter replaces the running value. -/
def fdUpd (cur : ℚ) (c : EquationsComponent) : ℚ :=
  if c.type = some "pipe" ∧ c.diameter ≠ none then c.diameter.getD 0 else cur

/-- The forward walk of `fillDiameter`: stamp every component with the
running diameter. -/
def fdGo (cur : ℚ) : List EquationsComponent → List EquationsComponent
  | [] => []
  | c :: rest => { c with diameter := some (fdUpd cur c) } :: fdGo (fdUpd cur c) rest

/-- `fillDiameter`: the starting running value is the second component's
diameter if present, else 0 (`components[1]?.diameter ?? 0`). -/
def fillDiameter (comps : List EquationsComponent) : List EquationsComponent :=
  fdGo (((comps.get? 1).bind (·.diameter)).getD 0) comps

lemma fdUpd_stamp (cur cur' : ℚ) (c : EquationsComponent) :
    fdUpd cur' { c with diameter := some cur } =
      (if c.type = some "pipe" then cur else cur') := by
  unfold fdUpd
  by_cases h : c.type = some "pipe" <;> simp [h]

/-- Re-running the diameter walk with the same seed is the identity. -/
lemma fdGo_fdGo (l : List EquationsComponent) : ∀ cur : ℚ,
    fdGo cur (fdGo cur l) = fdGo cur l := by
  induction l with
  | nil => intro cur; rfl
  | cons x xs ih =>
    intro cur
    show fdGo cur ({ x with diameter := some (fdUpd cur x) } :: fdGo (fdUpd cur x) xs) =
      { x with diameter := some (fdUpd cur x) } :: fdGo (fdUpd cur x) xs
    rw [fdGo, fdUpd_stamp]
    by_cases hx : x.type = some "pipe"
    · simp only [hx, if_pos]
      rw [ih (fdUpd cur x)]
    · have hupd : fdUpd cur x = cur := by
        unfold fdUpd
        simp [hx]
      simp only [hx, if_neg, hupd, ite_self]
      rw [ih cur]

/-- The running-diameter update is a no-op when the running value is the
component's own `?? 0` diameter (both branches then return the same). -/
lemma fdUpd_self (y : EquationsComponent) :
    fdUpd (y.diameter.getD 0) y = y.diameter.getD 0 := by
  unfold fdUpd
  split <;> rfl

/-- C9: applying the Normalizer's diameter-fill pass to its own output
produces no further change: `fillDiameter (fillDiameter xs) = fillDiameter xs`. -/
theorem fillDiameter_idempotent (l : List EquationsComponent) :
    fillDiameter (fillDiameter l) = fillDiameter l := by
  match l with
  | [] => rfl
  | [x] =>
    show fillDiameter (fdGo 0 [x]) = fdGo 0 [x]
    show fdGo 0 [{ x with diameter := some (fdUpd 0 x) }] =
      [{ x with diameter := some (fdUpd 0 x) }]
    rw [fdGo, fdGo, fdUpd_stamp]
    by_cases hx : x.type = some "pipe"
    · simp [hx]
    · have hupd : fdUpd 0 x = 0 := by unfold fdUpd; simp [hx]
      simp [hx, hupd]
  | x :: y :: ys =>
    have hinit : fillDiameter (x :: y :: ys) =
        fdGo (y.diameter.getD 0) (x :: y :: ys) := rfl
    set c0 : ℚ := y.diameter.getD 0 with hc0
    set c1 : ℚ := fdUpd c0 x with hc1
    set c2 : ℚ := fdUpd c1 y with hc2
    have hout : fillDiameter (x :: y :: ys) =
        { x with diameter := some c1 } :: { y with diameter := some c2 } ::
          fdGo c2 ys := by
      rw [hinit, fdGo, fdGo, ← hc1, ← hc2]
    have hsecond : fillDiameter (fillDiameter (x :: y :: ys)) =
        fdGo c2 (fillDiameter (x :: y :: ys)) := by
      rw [hout]; rfl
    rw [hsecond, hout, fdGo, fdGo, fdUpd_stamp, fdUpd_stamp]
    by_cases hx : x.type = some "pipe"
    · simp only [hx, if_pos]
      by_cases hy : y.type = some "pipe"
      · simp only [hy, if_pos]
        rw [fdGo_fdGo]
      · have h21 : c2 = c1 := by rw [hc2]; unfold fdUpd; simp [hy]
        simp only [hy, if_neg, h21, ite_self]
        rw [fdGo_fdGo]
    · -- the head is not a pipe, so the first-pass seed `c0` survives to `y`
      -- and `c2 = fdUpd c0 y = c0 = c1` in every subcase.
      have h10 : c1 = c0 := by rw [hc1]; unfold fdUpd; simp [hx]
      have h20 : c2 = c0 := by rw [hc2, h10, hc0, fdUpd_self]
      by_cases hy : y.type = some "pipe"
      · simp only [hx, if_neg, hy, if_pos, h20, h10, ite_self]
        rw [fdGo_fdGo]
      · simp only [hx, if_neg, hy, h20, h10, ite_self]
        rw [fdGo_fdGo]

/-! ### Capacity fill (`fillCapacity`)

The source walks the list in reverse draw order with a running flow
`current` and a `Map` from branch reference to recorded side flow.  The
`Map` is modelled as a function `Int → Option ℚ`. -/

/-- One step of the reversed capacity walk (the body of the `map` over
the reversed array in `fillCapacity`). -/
def fcStep (cur : ℚ) (m : Int → Option ℚ) (c : EquationsComponent) :
    EquationsComponent × ℚ × (Int → Option ℚ) :=
  if c.type = some "outlet" then
    ({ c with capacity := some (c.capacity.getD 0) }, cur + c.capacity.getD 0, m)
  else if c.type = some "tee_side" ∧ c.tee_ref ≠ none then
    ({ c with capacity := some cur }, 0,
      fun r' => if c.tee_ref = some r' then some cur else m r')
  else if c.type = some "tee_main" ∧ c.tee_ref ≠ none then
    ({ c with capacity := some cur }, cur + (m (c.tee_ref.getD 0)).getD 0, m)
  else
    ({ c with capacity := some cur }, cur, m)

/-- The reversed capacity walk, producing the updated components. -/
def fcGo (cur : ℚ) (m : Int → Option ℚ) : List EquationsComponent → List EquationsComponent
  | [] => []
  | c :: rest =>
    (fcStep cur m c).1 :: fcGo (fcStep cur m c).2.1 (fcStep cur m c).2.2 rest

/-- The state (`current`, side-flow map) after the reversed walk over a list. -/
def fcState (cur : ℚ) (m : Int → Option ℚ) : List EquationsComponent → ℚ × (Int → Option ℚ)
  | [] => (cur, m)
  | c :: rest => fcState (fcStep cur m c).2.1 (fcStep cur m c).2.2 rest

/-- `fillCapacity`: reverse, walk, reverse back. -/
def fillCapacity (comps : List EquationsComponent) : List EquationsComponent :=
  (fcGo 0 (fun _ => none) comps.reverse).reverse

lemma fcGo_append (xs ys : List EquationsComponent) : ∀ cur m,
    fcGo cur m (xs ++ ys) =
      fcGo cur m xs ++ fcGo (fcState cur m xs).1 (fcState cur m xs).2 ys := by
  induction xs with
  | nil => intro cur m; rfl
  | cons c rest ih =>
    intro cur m
    show (fcStep cur m c).1 :: fcGo (fcStep cur m c).2.1 (fcStep cur m c).2.2 (rest ++ ys) = _
    rw [ih]
    rfl

lemma fcGo_length (l : List EquationsComponent) : ∀ cur m, (fcGo cur m l).length = l.length := by
  induction l with
  | nil => intro cur m; rfl
  | cons c rest ih => intro cur m; show (fcGo _ _ (c :: rest)).length = _; rw [fcGo]; simp [ih]

/-- A walk over components none of which is a `tee_side` with branch
reference `r` leaves the recorded side flow for `r` unchanged. -/
lemma fcState_stable (r : Int) (l : List EquationsComponent)
    (hl : ∀ c ∈ l, ¬(c.type = some "tee_side" ∧ c.tee_ref = some r)) :
    ∀ cur m, (fcState cur m l).2 r = m r := by
  induction l with
  | nil => intro cur m; rfl
  | cons c rest ih =>
    intro cur m
    have hc := hl c (List.mem_cons_self c rest)
    have hrest : ∀ c' ∈ rest, ¬(c'.type = some "tee_side" ∧ c'.tee_ref = some r) :=
      fun c' hc' => hl c' (List.mem_cons_of_mem c hc')
    show (fcState (fcStep cur m c).2.1 (fcStep cur m c).2.2 rest).2 r = m r
    rw [ih hrest]
    unfold fcStep
    by_cases h1 : c.type = some "outlet"
    · simp [h1]
    · by_cases h2 : c.type = some "tee_side" ∧ c.tee_ref ≠ none
      · simp only [h1, if_neg, if_pos h2, not_false_eq_true]
        have : ¬ c.tee_ref = some r := by
          intro hr
          exact hc ⟨h2.1, hr⟩
        simp [this]
      · by_cases h3 : c.type = some "tee_main" ∧ c.tee_ref ≠ none
        · simp [h1, h2, h3]
        · simp [h1, h2, h3]

lemma getD_append_left {α : Type} (A B : List α) (d : α) :
    ∀ i, i < A.length → (A ++ B).getD i d = A.getD i d := by
  induction A with
  | nil => intro i h; simp at h
  | cons a rest ih =>
    intro i h
    match i with
    | 0 => rfl
    | Nat.succ j =>
      show (rest ++ B).getD j d = rest.getD j d
      exact ih j (by simpa using h)

lemma getD_append_shift {α : Type} (A B : List α) (d : α) :
    ∀ i, (A ++ B).getD (A.length + i) d = B.getD i d := by
  induction A with
  | nil => intro i; simp
  | cons a rest ih =>
    intro i
    have hidx : (a :: rest).length + i = (rest.length + i) + 1 := by
      simp only [List.length_cons]; omega
    rw [List.cons_append, hidx]
    show (rest ++ B).getD (rest.length + i) d = B.getD i d
    exact ih i

/-- Capacity of the component at position `i` of a list (`?? 0`). -/
def capAt (l : List EquationsComponent) (i : ℕ) : ℚ :=
  ((l.getD i dfltEC).capacity).getD 0

/-- C1: flow conservation at a tee.  If the normalized list has the
shape `pre ++ [pipe, tee_main(r)] ++ mid ++ [tee_side(r)] ++ post`,
where `mid` records no other side flow for reference `r`, then the
capacity `fillCapacity` assigns to the `tee_main` (main-branch flow)
plus the capacity it assigns to the `tee_side` (side-branch flow)
equals the capacity it assigns to the pipe immediately upstream of the
tee. -/
theorem fillCapacity_tee_conservation
    (pre mid post : List EquationsComponent) (p tm ts : EquationsComponent) (r : Int)
    (hp : p.type = some "pipe")
    (htm : tm.type = some "tee_main") (htmr : tm.tee_ref = some r)
    (hts : ts.type = some "tee_side") (htsr : ts.tee_ref = some r)
    (hmid : ∀ c ∈ mid, ¬(c.type = some "tee_side" ∧ c.tee_ref = some r)) :
    capAt (fillCapacity (pre ++ p :: tm :: mid ++ ts :: post)) (pre.length + 1)
      + capAt (fillCapacity (pre ++ p :: tm :: mid ++ ts :: post)) (pre.length + 2 + mid.length)
    = capAt (fillCapacity (pre ++ p :: tm :: mid ++ ts :: post)) pre.length := by
  have hrev : (pre ++ p :: tm :: mid ++ ts :: post).reverse =
      post.reverse ++ ts :: (mid.reverse ++ tm :: p :: pre.reverse) := by
    simp
  set c1 : ℚ := (fcState 0 (fun _ => none) post.reverse).1 with hc1
  set m1 : Int → Option ℚ := (fcState 0 (fun _ => none) post.reverse).2 with hm1
  have hts1 : (fcStep c1 m1 ts).1 = { ts with capacity := some c1 } := by
    simp [fcStep, hts, htsr]
  have hts2 : (fcStep c1 m1 ts).2.1 = 0 := by
    simp [fcStep, hts, htsr]
  have htsm : (fcStep c1 m1 ts).2.2 r = some c1 := by
    simp [fcStep, hts, htsr]
  set m1' : Int → Option ℚ := (fcStep c1 m1 ts).2.2 with hm1'
  set c2 : ℚ := (fcState 0 m1' mid.reverse).1 with hc2
  set m2 : Int → Option ℚ := (fcState 0 m1' mid.reverse).2 with hm2def
  have hmid' : ∀ c ∈ mid.reverse, ¬(c.type = some "tee_side" ∧ c.tee_ref = some r) := by
    intro c hc
    exact hmid c (List.mem_reverse.mp hc)
  have hm2 : m2 r = some c1 := by
    rw [hm2def, fcState_stable r mid.reverse hmid' 0 m1']
    exact htsm
  have htm1 : (fcStep c2 m2 tm).1 = { tm with capacity := some c2 } := by
    simp [fcStep, htm, htmr]
  have htm2 : (fcStep c2 m2 tm).2.1 = c2 + c1 := by
    simp [fcStep, htm, htmr, hm2]
  have htmm : (fcStep c2 m2 tm).2.2 = m2 := by
    simp [fcStep, htm, htmr]
  have hp1 : ∀ cur m, (fcStep cur m p).1 = { p with capacity := some cur } := by
    intro cur m; simp [fcStep, hp]
  have hp2 : ∀ cur m, (fcStep cur m p).2.1 = cur := by
    intro cur m; simp [fcStep, hp]
  have hp3 : ∀ cur m, (fcStep cur m p).2.2 = m := by
    intro cur m; simp [fcStep, hp]
  have hshape : fillCapacity (pre ++ p :: tm :: mid ++ ts :: post) =
      (fcGo (c2 + c1) m2 pre.reverse).reverse ++
        { p with capacity := some (c2 + c1) } ::
        { tm with capacity := some c2 } ::
        ((fcGo 0 m1' mid.reverse).reverse ++
          { ts with capacity := some c1 } ::
          (fcGo 0 (fun _ => none) post.reverse).reverse) := by
    unfold fillCapacity
    rw [hrev, fcGo_append, ← hc1, ← hm1]
    rw [fcGo, hts1, hts2, ← hm1', fcGo_append, ← hc2, ← hm2def]
    rw [fcGo, htm1, htm2, htmm]
    rw [fcGo, hp1, hp2, hp3]
    simp
  set A : List EquationsComponent := (fcGo (c2 + c1) m2 pre.reverse).reverse with hA
  set Cm : List EquationsComponent := (fcGo 0 m1' mid.reverse).reverse with hCm
  have hAl : A.length = pre.length := by
    rw [hA]; simp [fcGo_length]
  have hCl : Cm.length = mid.length := by
    rw [hCm]; simp [fcGo_length]
  have e1 : capAt (fillCapacity (pre ++ p :: tm :: mid ++ ts :: post)) pre.length = c2 + c1 := by
    unfold capAt
    rw [hshape]
    have hidx : pre.length = A.length + 0 := by omega
    rw [hidx, getD_append_shift]
    rfl
  have e2 : capAt (fillCapacity (pre ++ p :: tm :: mid ++ ts :: post)) (pre.length + 1) = c2 := by
    unfold capAt
    rw [hshape]
    have hidx : pre.length + 1 = A.length + 1 := by omega
    rw [hidx, getD_append_shift]
    rfl
  have e3 : capAt (fillCapacity (pre ++ p :: tm :: mid ++ ts :: post))
      (pre.length + 2 + mid.length) = c1 := by
    unfold capAt
    rw [hshape]
    have hidx : pre.length + 2 + mid.length = A.length + (mid.length + 2) := by omega
    rw [hidx, getD_append_shift]
    show ((Cm ++ { ts with capacity := some c1 } ::
      (fcGo 0 (fun _ => none) post.reverse).reverse).getD mid.length dfltEC).capacity.getD 0 = c1
    have hidx2 : mid.length = Cm.length + 0 := by omega
    rw [hidx2, getD_append_shift]
    rfl
  rw [e1, e2, e3]

/-- Witness for C1 at a concrete normalized list:
`[discharge, pipe, tee_main(0), pipe, outlet(0, 3), tee_side(0), elbow45, pipe, outlet(2)]`. -/
theorem fillCapacity_tee_conservation_witness :
    (({ component := CompKind.edge, id := 1, type := some "pipe" } : EquationsComponent).type
        = some "pipe")
    ∧ capAt (fillCapacity
        ([{ component := CompKind.node, id := 0, type := some "discharge" }] ++
          ({ component := CompKind.edge, id := 1, type := some "pipe" } : EquationsComponent) ::
          ({ component := CompKind.node, id := 2, type := some "tee_main", tee_ref := some 0 } : EquationsComponent) ::
          ([{ component := CompKind.edge, id := 3, type := some "pipe" },
            { component := CompKind.node, id := 4, type := some "outlet", capacity := some 3, tee_ref := some 0 }] ++
            ({ component := CompKind.node, id := 5, type := some "tee_side", tee_ref := some 0 } : EquationsComponent) ::
            [{ component := CompKind.node, id := 6, type := some "elbow45" },
             { component := CompKind.edge, id := 7, type := some "pipe" },
             { component := CompKind.node, id := 8, type := some "outlet", capacity := some 2 }]))) 2
      + capAt (fillCapacity
        ([{ component := CompKind.node, id := 0, type := some "discharge" }] ++
          ({ component := CompKind.edge, id := 1, type := some "pipe" } : EquationsComponent) ::
          ({ component := CompKind.node, id := 2, type := some "tee_main", tee_ref := some 0 } : EquationsComponent) ::
          ([{ component := CompKind.edge, id := 3, type := some "pipe" },
            { component := CompKind.node, id := 4, type := some "outlet", capacity := some 3, tee_ref := some 0 }] ++
            ({ component := CompKind.node, id := 5, type := some "tee_side", tee_ref := some 0 } : EquationsComponent) ::
            [{ component := CompKind.node, id := 6, type := some "elbow45" },
             { component := CompKind.edge, id := 7, type := some "pipe" },
             { component := CompKind.node, id := 8, type := some "outlet", capacity := some 2 }]))) 5
      = capAt (fillCapacity
        ([{ component := CompKind.node, id := 0, type := some "discharge" }] ++
          ({ component := CompKind.edge, id := 1, type := some "pipe" } : EquationsComponent) ::
          ({ component := CompKind.node, id := 2, type := some "tee_main", tee_ref := some 0 } : EquationsComponent) ::
          ([{ component := CompKind.edge, id := 3, type := some "pipe" },
            { component := CompKind.node, id := 4, type := some "outlet", capacity := some 3, tee_ref := some 0 }] ++
            ({ component := CompKind.node, id := 5, type := some "tee_side", tee_ref := some 0 } : EquationsComponent) ::
            [{ component := CompKind.node, id := 6, type := some "elbow45" },
             { component := CompKind.edge, id := 7, type := some "pipe" },
             { component := CompKind.node, id := 8, type := some "outlet", capacity := some 2 }]))) 1 :=
  ⟨rfl,
    fillCapacity_tee_conservation
      [{ component := CompKind.node, id := 0, type := some "discharge" }]
      [{ component := CompKind.edge, id := 3, type := some "pipe" },
       { component := CompKind.node, id := 4, type := some "outlet", capacity := some 3, tee_ref := some 0 }]
      [{ component := CompKind.node, id := 6, type := some "elbow45" },
       { component := CompKind.edge, id := 7, type := some "pipe" },
       { component := CompKind.node, id := 8, type := some "outlet", capacity := some 2 }]
      { component := CompKind.edge, id := 1, type := some "pipe" }
      { component := CompKind.node, id := 2, type := some "tee_main", tee_ref := some 0 }
      { component := CompKind.node, id := 5, type := some "tee_side", tee_ref := some 0 }
      0 rfl rfl rfl rfl rfl (by decide)⟩

/-! ### Reducer insertion (`insertReducersForDiameterChanges`) -/

/-- JS `a ?? b ?? 0` on two optional numbers. -/
def jsNum2 (a b : Option ℚ) : ℚ :=
  (a.orElse (fun _ => b)).getD 0

/-- The trigger of `insertReducersForDiameterChanges`: a non-reducer
node immediately followed by a pipe, with both fallback-resolved
diameters positive and different. -/
def reducerCond (curr next : EquationsComponent) : Bool :=
  decide (curr.component = CompKind.node) &&
  !decide (curr.type = some "reducer") &&
  decide (next.type = some "pipe") &&
  decide (0 < jsNum2 curr.diameter next.diameter) &&
  decide (0 < jsNum2 next.diameter curr.diameter) &&
  !decide (jsNum2 curr.diameter next.diameter = jsNum2 next.diameter curr.diameter)

/-- The synthetic reducer spliced at a diameter change (`++maxId` gives
it the next fresh id). -/
def mkReducer (newId : Int) (curr next : EquationsComponent) : EquationsComponent :=
  { component := CompKind.node, id := newId, type := some "reducer",
    x := curr.x, y := curr.y,
    diameter := some (jsNum2 curr.diameter next.diameter),
    capacity := some (jsNum2 next.capacity curr.capacity) }

/-- The per-path walk of `insertReducersForDiameterChanges`, threading
the global id counter. -/
def irGo (mid : Int) : List EquationsComponent → Int × List EquationsComponent
  | [] => (mid, [])
  | [c] => (mid, [c])
  | c :: next :: rest =>
    if reducerCond c next then
      ((irGo (mid + 1) (next :: rest)).1,
        c :: mkReducer (mid + 1) c next :: (irGo (mid + 1) (next :: rest)).2)
    else
      ((irGo mid (next :: rest)).1, c :: (irGo mid (next :: rest)).2)

/-- The global fresh-id seed: the largest id over all paths, starting at -1. -/
def computeMaxId (paths : List (List EquationsComponent)) : Int :=
  paths.foldl (fun acc path => path.foldl (fun a c => if a < c.id then c.id else a) acc) (-1)

/-- `insertReducersForDiameterChanges`: per-path walk with a shared id counter. -/
def insertReducersForDiameterChanges (paths : List (List EquationsComponent)) :
    List (List EquationsComponent) :=
  match paths with
  | [] => []
  | _ :: _ =>
    (paths.foldl
      (fun (st : Int × List (List EquationsComponent)) path =>
        ((irGo st.1 path).1, st.2 ++ [(irGo st.1 path).2]))
      (computeMaxId paths, [])).2

/-- A path with no trigger pair passes through the reducer walk unchanged. -/
lemma irGo_id (l : List EquationsComponent)
    (h : List.Chain' (fun a b => reducerCond a b = false) l) :
    ∀ mid, irGo mid l = (mid, l) := by
  induction l with
  | nil => intro mid; rfl
  | cons c rest ih =>
    intro mid
    match rest with
    | [] => rfl
    | d :: rest' =>
      have h1 : reducerCond c d = false := (List.chain'_cons.mp h).1
      have h2 : List.Chain' (fun a b => reducerCond a b = false) (d :: rest') :=
        (List.chain'_cons.mp h).2
      rw [irGo, if_neg (by simp [h1]), ih h2 mid]

/-- `Chain'` on a two-element list, from the single relation instance. -/
lemma chain'_pair {α : Type} {R : α → α → Prop} {a b : α} (h : R a b) :
    List.Chain' R [a, b] :=
  List.chain'_cons.mpr ⟨h, List.chain'_singleton b⟩

/-- The reducer walk on a path whose only trigger pair is `(u, v)`
inserts exactly one reducer, between `u` and `v`. -/
lemma irGo_single_trigger (post : List EquationsComponent) (u v : EquationsComponent)
    (hcond : reducerCond u v = true)
    (hpost : List.Chain' (fun a b => reducerCond a b = false) (v :: post)) :
    ∀ pre : List EquationsComponent,
      List.Chain' (fun a b => reducerCond a b = false) (pre ++ [u]) →
      ∀ mid, irGo mid (pre ++ u :: v :: post) =
        (mid + 1, pre ++ u :: mkReducer (mid + 1) u v :: v :: post) := by
  intro pre
  induction pre with
  | nil =>
    intro _ mid
    have hid := irGo_id (v :: post) hpost (mid + 1)
    simp only [List.nil_append]
    rw [irGo, if_pos (by simp [hcond]), hid]
  | cons a pre' ih =>
    intro hpre mid
    match pre' with
    | [] =>
      have h1 : reducerCond a u = false := by
        simp only [List.cons_append, List.nil_append] at hpre
        exact (List.chain'_cons.mp hpre).1
      have hh := ih (by simp) mid
      simp only [List.nil_append] at hh
      simp only [List.cons_append, List.nil_append]
      rw [irGo, if_neg (by simp [h1]), hh]
    | b :: pre'' =>
      have h1 : reducerCond a b = false := by
        simp only [List.cons_append] at hpre
        exact (List.chain'_cons.mp hpre).1
      have h2 : List.Chain' (fun x y => reducerCond x y = false) ((b :: pre'') ++ [u]) := by
        simp only [List.cons_append] at hpre ⊢
        exact (List.chain'_cons.mp hpre).2
      have hh := ih h2 mid
      simp only [List.cons_append] at hh ⊢
      rw [irGo, if_neg (by simp [h1]), hh]

/-- C4: reducer insertion exactness.  Within a finished path whose only
diameter-change trigger is the adjacent pair `(u, v)` (a non-reducer
node `u` immediately followed by a pipe `v`, resolved diameters both
positive and different), the output path is the input with exactly one
synthetic `reducer` spliced between `u` and `v`; the reducer carries
the node's (upstream) resolved diameter and the capacity inherited from
the following pipe (or, if absent, the node), and no reducer is
inserted anywhere else. -/
theorem insertReducers_exactness
    (pre post : List EquationsComponent) (u v : EquationsComponent)
    (hcond : reducerCond u v = true)
    (hpre : List.Chain' (fun a b => reducerCond a b = false) (pre ++ [u]))
    (hpost : List.Chain' (fun a b => reducerCond a b = false) (v :: post)) :
    insertReducersForDiameterChanges [pre ++ u :: v :: post] =
      [pre ++ u :: mkReducer (computeMaxId [pre ++ u :: v :: post] + 1) u v :: v :: post]
    ∧ (mkReducer (computeMaxId [pre ++ u :: v :: post] + 1) u v).type = some "reducer"
    ∧ (mkReducer (computeMaxId [pre ++ u :: v :: post] + 1) u v).diameter
        = some (jsNum2 u.diameter v.diameter)
    ∧ (mkReducer (computeMaxId [pre ++ u :: v :: post] + 1) u v).capacity
        = some (jsNum2 v.capacity u.capacity) := by
  refine ⟨?_, rfl, rfl, rfl⟩
  show (List.foldl _ (computeMaxId [pre ++ u :: v :: post], []) [pre ++ u :: v :: post]).2 = _
  rw [List.foldl_cons, List.foldl_nil,
    irGo_single_trigger post u v hcond hpost pre hpre (computeMaxId [pre ++ u :: v :: post])]
  simp

/-- Witness for C4 at the concrete path
`[discharge] ++ [elbow90(d=100), pipe(d=80, Q=5)] ++ [outlet]`. -/
theorem insertReducers_exactness_witness :
    (reducerCond
        { component := CompKind.node, id := 1, type := some "elbow90", diameter := some 100 }
        { component := CompKind.edge, id := 2, type := some "pipe", diameter := some 80,
          capacity := some 5 } = true)
    ∧ insertReducersForDiameterChanges
        [[{ component := CompKind.node, id := 0, type := some "discharge", diameter := some 100 }] ++
          ({ component := CompKind.node, id := 1, type := some "elbow90", diameter := some 100 } : EquationsComponent) ::
          ({ component := CompKind.edge, id := 2, type := some "pipe", diameter := some 80,
             capacity := some 5 } : EquationsComponent) ::
          [{ component := CompKind.node, id := 3, type := some "outlet" }]] =
      [[{ component := CompKind.node, id := 0, type := some "discharge", diameter := some 100 }] ++
        ({ component := CompKind.node, id := 1, type := some "elbow90", diameter := some 100 } : EquationsComponent) ::
        mkReducer
          (computeMaxId
            [[{ component := CompKind.node, id := 0, type := some "discharge", diameter := some 100 }] ++
              ({ component := CompKind.node, id := 1, type := some "elbow90", diameter := some 100 } : EquationsComponent) ::
              ({ component := CompKind.edge, id := 2, type := some "pipe", diameter := some 80,
                 capacity := some 5 } : EquationsComponent) ::
              [{ component := CompKind.node, id := 3, type := some "outlet" }]] + 1)
          { component := CompKind.node, id := 1, type := some "elbow90", diameter := some 100 }
          { component := CompKind.edge, id := 2, type := some "pipe", diameter := some 80,
            capacity := some 5 } ::
        ({ component := CompKind.edge, id := 2, type := some "pipe", diameter := some 80,
           capacity := some 5 } : EquationsComponent) ::
        [{ component := CompKind.node, id := 3, type := some "outlet" }]] :=
  ⟨by decide,
    (insertReducers_exactness
      [{ component := CompKind.node, id := 0, type := some "discharge", diameter := some 100 }]
      [{ component := CompKind.node, id := 3, type := some "outlet" }]
      { component := CompKind.node, id := 1, type := some "elbow90", diameter := some 100 }
      { component := CompKind.edge, id := 2, type := some "pipe", diameter := some 80,
        capacity := some 5 }
      (by decide) (chain'_pair (by decide)) (chain'_pair (by decide))).1⟩

/-! ### Path decomposition (`splitByOutlet`)

The JS `Map` keyed by `tee_ref` is modelled as an association list with
insertion-order upsert, which reproduces both lookup and the insertion-
order iteration of `Map.entries()`.  `Array.prototype.sort` (stable in
modern engines) is modelled as a stable insertion sort on the
`distFromTee` key. -/

/-- Index of the last element satisfying `p` (the JS forward scan that
keeps overwriting `lastOutletIdx`). -/
def lastIdxP (p : EquationsComponent → Bool) : List EquationsComponent → Option ℕ
  | [] => none
  | c :: rest =>
    match lastIdxP p rest with
    | some i => some (i + 1)
    | none => if p c then some 0 else none

/-- First index `≥ start` satisfying `p` (JS `findIndex` with an
`idx >= start` conjunct). -/
def findIdxFrom (p : EquationsComponent → Bool) (start : ℕ)
    (l : List EquationsComponent) : Option ℕ :=
  ((l.drop start).findIdx? p).map (· + start)

/-- JS `slice(a, b)`. -/
def slice (l : List EquationsComponent) (a b : ℕ) : List EquationsComponent :=
  (l.drop a).take (b - a)

/-- Insertion-order upsert into an association list (JS `Map.set`). -/
def upsert (m : List (Int × ℕ)) (k : Int) (v : ℕ) : List (Int × ℕ) :=
  match m with
  | [] => [(k, v)]
  | (k', v') :: rest => if k' = k then (k, v) :: rest else (k', v') :: upsert rest k v

/-- Association-list lookup (JS `Map.get`). -/
def alookup (m : List (Int × ℕ)) (k : Int) : Option ℕ :=
  match m with
  | [] => none
  | (k', v) :: rest => if k' = k then some v else alookup rest k

/-- Builds the `tee_ref → index` map for components of type `tname`
(the `teeMainByRef` / `teeSideByRef` builders). -/
def buildRefMapGo (tname : String) : ℕ → List EquationsComponent → List (Int × ℕ) → List (Int × ℕ)
  | _, [], m => m
  | i, c :: rest, m =>
    buildRefMapGo tname (i + 1) rest
      (if c.type = some tname ∧ c.tee_ref ≠ none then upsert m (c.tee_ref.getD 0) i else m)

def buildRefMap (tname : String) (l : List EquationsComponent) : List (Int × ℕ) :=
  buildRefMapGo tname 0 l []

/-- The side-branch walk after the first element: stop before a
`tee_main`/`discharge`, stop after an `outlet`. -/
def sideTailGo : List EquationsComponent → List EquationsComponent
  | [] => []
  | c :: rest =>
    if c.type = some "tee_main" ∨ c.type = some "discharge" then []
    else if c.type = some "outlet" then [c]
    else c :: sideTailGo rest

/-- The side-branch walk from `tee_side` (the first element is pushed
unconditionally, then `sideTailGo`). -/
def sideTailOf : List EquationsComponent → List EquationsComponent
  | [] => []
  | c :: rest => if c.type = some "outlet" then [c] else c :: sideTailGo rest

/-- Candidate paths contributed by one `(ref, mainIdx)` entry of the
`tee_main` map: the main branch (discharge → first outlet with this
ref) and the side branch (shared upstream ++ side walk). -/
def candFor (comps : List EquationsComponent) (D : ℕ) (teeSideMap : List (Int × ℕ))
    (ref : Int) (mainIdx : ℕ) : List (List EquationsComponent) :=
  (match findIdxFrom (fun c => decide (c.type = some "outlet") && decide (c.tee_ref = some ref))
      mainIdx comps with
   | some fo => [slice comps D (fo + 1)]
   | none => []) ++
  (match alookup teeSideMap ref with
   | some sideIdx =>
     (fun sp => if sp.isEmpty then [] else [sp])
       (((slice comps D (min mainIdx sideIdx)).filter
           (fun c => !(decide (c.type = some "tee_main") || decide (c.type = some "tee_side"))))
         ++ sideTailOf (comps.drop sideIdx))
   | none => [])

/-- The loop over the `tee_main` map entries (insertion order; the
`handledRefs` guard in the source is inert because map keys are unique). -/
def candLoop (comps : List EquationsComponent) (D : ℕ) (teeSideMap : List (Int × ℕ)) :
    List (Int × ℕ) → List (List EquationsComponent)
  | [] => []
  | (ref, mainIdx) :: rest =>
    candFor comps D teeSideMap ref mainIdx ++ candLoop comps D teeSideMap rest

/-- Deduplication by last-outlet identity, keeping the first path per
outlet and trimming each kept path at its last outlet. -/
def dedupGo (seen : List Int) : List (List EquationsComponent) → List (List EquationsComponent)
  | [] => []
  | path :: rest =>
    match lastIdxP (fun c => decide (c.type = some "outlet")) path with
    | none => dedupGo seen rest
    | some li =>
      if seen.contains (path.getD li dfltEC).id then dedupGo seen rest
      else path.take (li + 1) :: dedupGo ((path.getD li dfltEC).id :: seen) rest

/-- Fallback when no branch-derived path survived: one path from the
discharge to the last outlet (or to the end of the list). -/
def fallbackPath (comps : List EquationsComponent) (D : ℕ) : List (List EquationsComponent) :=
  match lastIdxP (fun c => decide (c.type = some "outlet")) comps with
  | some lo => [slice comps D (lo + 1)]
  | none => [comps.drop D]

/-- Path metadata used by the final ordering step. -/
structure PathMeta where
  path : List EquationsComponent
  outletId : Int
  teeRef : Option Int
  distFromTee : ℚ
deriving DecidableEq

/-- Total pipe length over a segment (`typeof c.length === "number"`). -/
def pipeLenSum (l : List EquationsComponent) : ℚ :=
  l.foldl (fun s c => if c.type = some "pipe" ∧ c.length ≠ none then s + c.length.getD 0 else s) 0

def metaOf (path : List EquationsComponent) : PathMeta :=
  match lastIdxP (fun c => decide (c.type = some "outlet")) path with
  | none => { path := path, outletId := -1, teeRef := none, distFromTee := 0 }
  | some oi =>
    { path := path,
      outletId := (path.getD oi dfltEC).id,
      teeRef := (path.getD oi dfltEC).tee_ref,
      distFromTee :=
        match (path.getD oi dfltEC).tee_ref with
        | none => 0
        | some r =>
          match
            (match path.findIdx?
                (fun c => decide (c.type = some "tee_main") && decide (c.tee_ref = some r)) with
             | some t => some t
             | none =>
               path.findIdx?
                 (fun c => decide (c.type = some "tee_side") && decide (c.tee_ref = some r))) with
          | some t => if t < oi then pipeLenSum (slice path t oi) else 0
          | none => 0 }

/-- Stable descending insertion on `distFromTee` (models the stable JS
sort with comparator `(a, b) => b.distFromTee - a.distFromTee`). -/
def insDesc (m : PathMeta) : List PathMeta → List PathMeta
  | [] => [m]
  | b :: bs => if b.distFromTee ≤ m.distFromTee then m :: b :: bs else b :: insDesc m bs

def sortDistDesc : List PathMeta → List PathMeta
  | [] => []
  | m :: ms => insDesc m (sortDistDesc ms)

/-- The source's "globally furthest outlet" scan (strict `>` keeps the
earliest maximum). -/
def pickBest (w0 : PathMeta) (ws : List PathMeta) : PathMeta :=
  (w0 :: ws).foldl (fun best m => if best.distFromTee < m.distFromTee then m else best) w0

/-- The ordering tail: sibling on the same `tee_ref` second (largest
distance first), then the rest by decreasing distance. -/
def orderRest (metas : List PathMeta) (firstMeta : PathMeta) : List PathMeta :=
  match (sortDistDesc ((metas.erase firstMeta).filter
      (fun m => decide (m.teeRef = firstMeta.teeRef)))).head? with
  | some s => firstMeta :: s :: sortDistDesc ((metas.erase firstMeta).erase s)
  | none => firstMeta :: sortDistDesc (metas.erase firstMeta)

/-- The output-ordering step: furthest-from-tee outlet first, then its
same-ref sibling, then the rest by decreasing distance.  `take` (JS
`indexOf` + `splice`) is modelled by `List.erase`; the metas reaching
this step are pairwise distinct (distinct outlet ids), so structural
erasure coincides with the source's reference-identity removal. -/
def orderPaths (deduped : List (List EquationsComponent)) : List (List EquationsComponent) :=
  match (deduped.map metaOf).filter (fun m => m.teeRef.isSome && decide (0 < m.distFromTee)) with
  | [] => deduped
  | w0 :: ws => (orderRest (deduped.map metaOf) (pickBest w0 ws)).map (·.path)

/-- `splitByOutlet`: empty guard, missing-discharge fallback, candidate
construction per tee reference, dedup by outlet, single-path fallback,
and final ordering. -/
def splitByOutlet (comps : List EquationsComponent) : List (List EquationsComponent) :=
  match comps with
  | [] => []
  | _ :: _ =>
    match comps.findIdx? (fun c => decide (c.type = some "discharge")) with
    | none => [comps]
    | some D =>
      (fun (deduped : List (List EquationsComponent)) =>
        orderPaths (if deduped.isEmpty then fallbackPath comps D else deduped))
      (dedupGo [] (candLoop comps D (buildRefMap "tee_side" comps) (buildRefMap "tee_main" comps)))

/-- Counterexample for C5 as stated: the empty input list contains no
discharge node, yet `splitByOutlet` returns no path at all (the
`length === 0` guard fires first), not exactly one path equal to the
input. -/
theorem splitByOutlet_empty_counterexample :
    splitByOutlet ([] : List EquationsComponent) = [] ∧
      (splitByOutlet ([] : List EquationsComponent)).length ≠ 1 :=
  ⟨rfl, by decide⟩

/-- C5 (amended): for every NONEMPTY input list containing no discharge
node, `splitByOutlet` returns exactly one path: the entire input
sequence, in order. -/
theorem splitByOutlet_no_discharge (comps : List EquationsComponent) (hne : comps ≠ [])
    (hnd : ∀ c ∈ comps, c.type ≠ some "discharge") :
    splitByOutlet comps = [comps] := by
  have hnone : comps.findIdx? (fun c => decide (c.type = some "discharge")) = none :=
    List.findIdx?_eq_none_iff.mpr (fun c hc => by simp [hnd c hc])
  cases comps with
  | nil => exact absurd rfl hne
  | cons c rest =>
    show splitByOutlet (c :: rest) = [c :: rest]
    unfold splitByOutlet
    rw [hnone]

/-- Witness for C5 at the concrete dischargeless input `[pipe, outlet]`. -/
theorem splitByOutlet_no_discharge_witness :
    (([{ component := CompKind.edge, id := 0, type := some "pipe" },
       { component := CompKind.node, id := 1, type := some "outlet" }] :
        List EquationsComponent) ≠ [])
    ∧ splitByOutlet
        [{ component := CompKind.edge, id := 0, type := some "pipe" },
         { component := CompKind.node, id := 1, type := some "outlet" }] =
      [[{ component := CompKind.edge, id := 0, type := some "pipe" },
        { component := CompKind.node, id := 1, type := some "outlet" }]] :=
  ⟨by decide,
    splitByOutlet_no_discharge
      [{ component := CompKind.edge, id := 0, type := some "pipe" },
       { component := CompKind.node, id := 1, type := some "outlet" }]
      (by decide) (by decide)⟩

/-! ### Supporting lemmas for the path-decomposition invariant (C6) -/

lemma head?_take {α : Type} {l : List α} {n : ℕ} (h : 0 < n) :
    (l.take n).head? = l.head? := by
  cases l with
  | nil => simp
  | cons a rest =>
    match n, h with
    | Nat.succ m, _ => simp

lemma getLast?_take_succ {α : Type} : ∀ (l : List α) (i : ℕ) (c : α),
    l.get? i = some c → (l.take (i + 1)).getLast? = some c := by
  intro l
  induction l with
  | nil => intro i c h; simp at h
  | cons a rest ih =>
    intro i c h
    match i with
    | 0 =>
      have hac : a = c := Option.some.inj h
      subst hac
      simp
    | Nat.succ j =>
      cases rest with
      | nil => simp at h
      | cons b rest' =>
        have hj : (b :: rest').get? j = some c := h
        show ((a :: b :: rest').take (j + 1 + 1)).getLast? = some c
        rw [List.take_succ_cons, List.take_succ_cons, List.getLast?_cons_cons]
        have hgoal := ih j c hj
        rw [List.take_succ_cons] at hgoal
        exact hgoal

lemma lastIdxP_sound (p : EquationsComponent → Bool) : ∀ (l : List EquationsComponent) (i : ℕ),
    lastIdxP p l = some i → ∃ c, l.get? i = some c ∧ p c = true := by
  intro l
  induction l with
  | nil => intro i h; simp [lastIdxP] at h
  | cons c rest ih =>
    intro i h
    rw [lastIdxP] at h
    cases hrest : lastIdxP p rest with
    | some j =>
      rw [hrest] at h
      obtain ⟨c', hc', hp⟩ := ih j hrest
      have : i = j + 1 := by
        simpa using h.symm
      subst this
      exact ⟨c', hc', hp⟩
    | none =>
      rw [hrest] at h
      by_cases hp : p c = true
      · rw [if_pos hp] at h
        have : i = 0 := by simpa using h.symm
        subst this
        exact ⟨c, rfl, hp⟩
      · rw [if_neg hp] at h
        simp at h

lemma lastIdxP_isSome (p : EquationsComponent → Bool) :
    ∀ (l : List EquationsComponent) (c : EquationsComponent),
    c ∈ l → p c = true → (lastIdxP p l).isSome := by
  intro l
  induction l with
  | nil => intro c h; simp at h
  | cons a rest ih =>
    intro c hc hp
    rw [lastIdxP]
    cases hrest : lastIdxP p rest with
    | some j => simp
    | none =>
      rcases List.mem_cons.mp hc with h | h
      · subst h
        simp [hp]
      · have := ih c h hp
        rw [hrest] at this
        simp at this

lemma mem_upsert {m : List (Int × ℕ)} {k0 : Int} {v0 : ℕ} :
    ∀ {k : Int} {v : ℕ}, (k, v) ∈ upsert m k0 v0 → (k = k0 ∧ v = v0) ∨ (k, v) ∈ m := by
  induction m with
  | nil =>
    intro k v h
    rw [upsert] at h
    rcases List.mem_singleton.mp h with h'
    exact Or.inl (by simpa using h')
  | cons kv rest ih =>
    intro k v h
    rw [upsert] at h
    by_cases hk : kv.1 = k0
    · rw [if_pos hk] at h
      rcases List.mem_cons.mp h with h' | h'
      · exact Or.inl (by simpa using h')
      · exact Or.inr (List.mem_cons_of_mem _ h')
    · rw [if_neg hk] at h
      rcases List.mem_cons.mp h with h' | h'
      · exact Or.inr (h' ▸ List.mem_cons_self _ _)
      · rcases ih h' with h'' | h''
        · exact Or.inl h''
        · exact Or.inr (List.mem_cons_of_mem _ h'')

lemma alookup_mem : ∀ (m : List (Int × ℕ)) (k : Int) (v : ℕ),
    alookup m k = some v → (k, v) ∈ m := by
  intro m
  induction m with
  | nil => intro k v h; simp [alookup] at h
  | cons kv rest ih =>
    intro k v h
    rw [alookup] at h
    by_cases hk : kv.1 = k
    · rw [if_pos hk] at h
      have h2 : kv.2 = v := by simpa using h
      have hkv : (k, v) = kv := by
        cases kv
        simp only at hk h2
        rw [hk, h2]
      exact List.mem_cons.mpr (Or.inl hkv)
    · rw [if_neg hk] at h
      exact List.mem_cons_of_mem _ (ih k v h)

lemma buildRefMapGo_mem (tname : String) :
    ∀ (l : List EquationsComponent) (i : ℕ) (m : List (Int × ℕ)) (k : Int) (v : ℕ),
    (k, v) ∈ buildRefMapGo tname i l m →
    (k, v) ∈ m ∨ (i ≤ v ∧ ∃ c, l.get? (v - i) = some c ∧ c.type = some tname ∧ c.tee_ref = some k) := by
  intro l
  induction l with
  | nil =>
    intro i m k v h
    rw [buildRefMapGo] at h
    exact Or.inl h
  | cons c rest ih =>
    intro i m k v h
    rw [buildRefMapGo] at h
    rcases ih (i + 1) _ k v h with hm | ⟨hle, c', hc', ht, hr⟩
    · -- membership in the possibly-updated map
      by_cases hcond : c.type = some tname ∧ c.tee_ref ≠ none
      · rw [if_pos hcond] at hm
        rcases mem_upsert hm with ⟨hk, hv⟩ | hm'
        · obtain ⟨r, hr⟩ : ∃ r, c.tee_ref = some r := by
            cases htr : c.tee_ref with
            | none => exact absurd htr hcond.2
            | some r => exact ⟨r, rfl⟩
          refine Or.inr ⟨by omega, c, ?_, hcond.1, ?_⟩
          · have hvz : v - i = 0 := by omega
            rw [hvz]
            rfl
          · rw [hr]
            rw [hr] at hk
            simp only [Option.getD_some] at hk
            rw [hk]
        · exact Or.inl hm'
      · rw [if_neg hcond] at hm
        exact Or.inl hm
    · refine Or.inr ⟨by omega, c', ?_, ht, hr⟩
      have hvi : v - i = (v - (i + 1)) + 1 := by omega
      rw [hvi]
      exact hc'

lemma buildRefMap_mem (tname : String) (l : List EquationsComponent) (k : Int) (v : ℕ)
    (h : (k, v) ∈ buildRefMap tname l) :
    ∃ c, l.get? v = some c ∧ c.type = some tname ∧ c.tee_ref = some k := by
  rcases buildRefMapGo_mem tname l 0 [] k v h with hm | ⟨_, c, hc, ht, hr⟩
  · simp at hm
  · exact ⟨c, by simpa using hc, ht, hr⟩

lemma findIdx?_spec {α : Type} (p : α → Bool) : ∀ (l : List α) (i j : ℕ),
    List.findIdx? p l i = some j →
    i ≤ j ∧ ∃ c, l.get? (j - i) = some c ∧ p c = true := by
  intro l
  induction l with
  | nil => intro i j h; rw [List.findIdx?_nil] at h; simp at h
  | cons x xs ih =>
    intro i j h
    rw [List.findIdx?_cons] at h
    by_cases hx : p x = true
    · rw [if_pos hx] at h
      have hij : i = j := by simpa using h
      subst hij
      exact ⟨le_refl i, x, by simp [Nat.sub_self], hx⟩
    · rw [if_neg hx] at h
      obtain ⟨hle, c, hc, hp⟩ := ih (i + 1) j h
      refine ⟨by omega, c, ?_, hp⟩
      have hidx : j - i = (j - (i + 1)) + 1 := by omega
      rw [hidx]
      exact hc

lemma ne_nil_of_head? {α : Type} {l : List α} {c : α} (h : l.head? = some c) : l ≠ [] := by
  cases l with
  | nil => simp at h
  | cons a rest => simp

lemma slice_head (comps : List EquationsComponent) (D b : ℕ) (hb : D < b) :
    (slice comps D b).head? = comps.get? D := by
  unfold slice
  rw [head?_take (by omega : 0 < b - D), List.head?_drop]
  exact (List.get?_eq_getElem? comps D).symm

lemma filter_head_keep {p : EquationsComponent → Bool} {l : List EquationsComponent}
    {c : EquationsComponent} (hh : l.head? = some c) (hp : p c = true) :
    (l.filter p).head? = some c := by
  cases l with
  | nil => simp at hh
  | cons a rest =>
    have hac : a = c := by simpa using hh
    subst hac
    rw [List.filter_cons, if_pos hp]
    rfl

lemma idx_after_D (comps : List EquationsComponent) (D : ℕ)
    (hup : ∀ c ∈ comps.take (D + 1),
      ¬(c.type = some "outlet" ∨ c.type = some "tee_main" ∨ c.type = some "tee_side"))
    {j : ℕ} {c : EquationsComponent} (hj : comps.get? j = some c)
    (hc : c.type = some "outlet" ∨ c.type = some "tee_main" ∨ c.type = some "tee_side") :
    D < j := by
  by_contra hle
  push_neg at hle
  have hmem : c ∈ comps.take (D + 1) := by
    have hget : (comps.take (D + 1)).get? j = some c := by
      rw [List.get?_take (by omega)]
      exact hj
    exact List.get?_mem hget
  exact hup c hmem hc

lemma findIdxFrom_ge {p : EquationsComponent → Bool} {start fo : ℕ}
    {l : List EquationsComponent} (h : findIdxFrom p start l = some fo) :
    start ≤ fo ∧ ∃ c, l.get? fo = some c ∧ p c = true := by
  unfold findIdxFrom at h
  cases hfi : (l.drop start).findIdx? p with
  | none => rw [hfi] at h; simp at h
  | some j =>
    rw [hfi] at h
    have hfo : fo = j + start := by simpa using h.symm
    obtain ⟨_, c, hc, hp⟩ := findIdx?_spec p (l.drop start) 0 j hfi
    rw [Nat.sub_zero, List.get?_drop] at hc
    refine ⟨by omega, c, ?_, hp⟩
    rw [hfo, Nat.add_comm]
    exact hc

/-- The deduplication step produces only trimmed candidate paths whose
last element is an outlet not yet seen. -/
lemma dedupGo_shape : ∀ (cands : List (List EquationsComponent)) (seen : List Int)
    (path : List EquationsComponent), path ∈ dedupGo seen cands →
    ∃ cand ∈ cands, ∃ li c,
      lastIdxP (fun c => decide (c.type = some "outlet")) cand = some li ∧
      cand.get? li = some c ∧ c.type = some "outlet" ∧
      path = cand.take (li + 1) ∧ c.id ∉ seen := by
  intro cands
  induction cands with
  | nil => intro seen path h; simp [dedupGo] at h
  | cons cand rest ih =>
    intro seen path h
    rw [dedupGo] at h
    cases hli : lastIdxP (fun c => decide (c.type = some "outlet")) cand with
    | none =>
      rw [hli] at h
      simp only [] at h
      obtain ⟨cand', hmem, rest'⟩ := ih seen path h
      exact ⟨cand', List.mem_cons_of_mem _ hmem, rest'⟩
    | some li =>
      rw [hli] at h
      simp only [] at h
      obtain ⟨c, hc, hp⟩ := lastIdxP_sound _ cand li hli
      have hgetD : cand.getD li dfltEC = c := by
        rw [List.getD_eq_get?, hc]
        rfl
      by_cases hseen : seen.contains (cand.getD li dfltEC).id = true
      · rw [if_pos hseen] at h
        obtain ⟨cand', hmem, rest'⟩ := ih seen path h
        exact ⟨cand', List.mem_cons_of_mem _ hmem, rest'⟩
      · rw [if_neg hseen] at h
        rcases List.mem_cons.mp h with h' | h'
        · refine ⟨cand, List.mem_cons_self _ _, li, c, hli, hc, by simpa using hp, h', ?_⟩
          rw [hgetD] at hseen
          intro hidmem
          exact hseen (List.elem_iff.mpr hidmem)
        · obtain ⟨cand', hmem, li', c', hli', hc', ht', hpath', hnotin'⟩ :=
            ih ((cand.getD li dfltEC).id :: seen) path h'
          refine ⟨cand', List.mem_cons_of_mem _ hmem, li', c', hli', hc', ht', hpath', ?_⟩
          intro hidmem
          exact hnotin' (List.mem_cons_of_mem _ hidmem)

/-- Distinct last-outlet identities across the deduplicated paths. -/
lemma dedupGo_pairwise : ∀ (cands : List (List EquationsComponent)) (seen : List Int),
    (dedupGo seen cands).Pairwise
      (fun p q => p.getLast?.map (·.id) ≠ q.getLast?.map (·.id)) := by
  intro cands
  induction cands with
  | nil => intro seen; simp [dedupGo]
  | cons cand rest ih =>
    intro seen
    rw [dedupGo]
    cases hli : lastIdxP (fun c => decide (c.type = some "outlet")) cand with
    | none => exact ih seen
    | some li =>
      show List.Pairwise _
        (if seen.contains (cand.getD li dfltEC).id = true then dedupGo seen rest
         else List.take (li + 1) cand :: dedupGo ((cand.getD li dfltEC).id :: seen) rest)
      by_cases hseen : seen.contains (cand.getD li dfltEC).id = true
      · rw [if_pos hseen]
        exact ih seen
      · rw [if_neg hseen]
        obtain ⟨c, hc, hp⟩ := lastIdxP_sound _ cand li hli
        have hgetD : cand.getD li dfltEC = c := by
          rw [List.getD_eq_get?, hc]
          rfl
        refine List.Pairwise.cons ?_ (ih _)
        intro q hq
        obtain ⟨cand', _, li', c', hli', hc', _, hpath', hnotin'⟩ :=
          dedupGo_shape rest _ q hq
        have hlast : (cand.take (li + 1)).getLast? = some c := getLast?_take_succ cand li c hc
        have hlast' : q.getLast? = some c' := by
          rw [hpath']
          exact getLast?_take_succ cand' li' c' hc'
        rw [hlast, hlast']
        have hne : c'.id ≠ c.id := by
          intro heq
          apply hnotin'
          rw [hgetD, ← heq]
          exact List.mem_cons_self _ _
        intro heq
        exact hne (by simpa using heq.symm)

/-- Every candidate path emitted by the per-reference loop starts at
the discharge component when every tee and outlet lies strictly after
the discharge in draw order. -/
lemma candLoop_head (comps : List EquationsComponent) (D : ℕ) (dc : EquationsComponent)
    (hDc : comps.get? D = some dc) (hdc : dc.type = some "discharge")
    (hup : ∀ c ∈ comps.take (D + 1),
      ¬(c.type = some "outlet" ∨ c.type = some "tee_main" ∨ c.type = some "tee_side"))
    (sideMap : List (Int × ℕ))
    (hside : ∀ kv ∈ sideMap, ∃ c, comps.get? kv.2 = some c ∧ c.type = some "tee_side") :
    ∀ (entries : List (Int × ℕ)),
    (∀ kv ∈ entries, ∃ c, comps.get? kv.2 = some c ∧ c.type = some "tee_main") →
    ∀ path ∈ candLoop comps D sideMap entries, path.head? = some dc := by
  intro entries
  induction entries with
  | nil => intro _ path h; simp [candLoop] at h
  | cons kv rest ih =>
    intro hmain path h
    obtain ⟨ref, mainIdx⟩ := kv
    rw [candLoop] at h
    obtain ⟨cm, hcm, hcmt⟩ := hmain (ref, mainIdx) (List.mem_cons_self _ _)
    have hDmain : D < mainIdx := idx_after_D comps D hup hcm (Or.inr (Or.inl hcmt))
    rcases List.mem_append.mp h with h | h
    · unfold candFor at h
      rcases List.mem_append.mp h with h | h
      · -- main-branch candidate
        cases hfi : findIdxFrom
            (fun c => decide (c.type = some "outlet") && decide (c.tee_ref = some ref))
            mainIdx comps with
        | none => rw [hfi] at h; simp at h
        | some fo =>
          rw [hfi] at h
          simp only [] at h
          have hpath : path = slice comps D (fo + 1) := by simpa using h
          obtain ⟨hge, _⟩ := findIdxFrom_ge hfi
          rw [hpath, slice_head comps D (fo + 1) (by omega), hDc]
      · -- side-branch candidate
        cases hal : alookup sideMap ref with
        | none => rw [hal] at h; simp at h
        | some sideIdx =>
          rw [hal] at h
          simp only [] at h
          obtain ⟨cs, hcs, hcst⟩ := hside (ref, sideIdx) (alookup_mem sideMap ref sideIdx hal)
          have hDside : D < sideIdx := idx_after_D comps D hup hcs (Or.inr (Or.inr hcst))
          have hsh : (slice comps D (min mainIdx sideIdx)).head? = some dc := by
            rw [slice_head comps D _ (by omega), hDc]
          have hfh : ((slice comps D (min mainIdx sideIdx)).filter
              (fun c => !(decide (c.type = some "tee_main") ||
                decide (c.type = some "tee_side")))).head? = some dc :=
            filter_head_keep hsh (by simp [hdc])
          have hsp : (((slice comps D (min mainIdx sideIdx)).filter
              (fun c => !(decide (c.type = some "tee_main") ||
                decide (c.type = some "tee_side"))))
              ++ sideTailOf (comps.drop sideIdx)).head? = some dc := by
            rw [List.head?_append_of_ne_nil _ (ne_nil_of_head? hfh)]
            exact hfh
          have hne : ¬((((slice comps D (min mainIdx sideIdx)).filter
              (fun c => !(decide (c.type = some "tee_main") ||
                decide (c.type = some "tee_side"))))
              ++ sideTailOf (comps.drop sideIdx)).isEmpty = true) := by
            rw [List.isEmpty_iff]
            exact ne_nil_of_head? hsp
          rw [if_neg hne] at h
          have hpath : path = ((slice comps D (min mainIdx sideIdx)).filter
              (fun c => !(decide (c.type = some "tee_main") ||
                decide (c.type = some "tee_side"))))
              ++ sideTailOf (comps.drop sideIdx) := by simpa using h
          rw [hpath]
          exact hsp
    · exact ih (fun kv' hkv' => hmain kv' (List.mem_cons_of_mem _ hkv')) path h

/-- The fallback single path starts at the discharge and ends at the
last outlet. -/
lemma fallbackPath_spec (comps : List EquationsComponent) (D : ℕ) (dc : EquationsComponent)
    (hDc : comps.get? D = some dc) (_hdc : dc.type = some "discharge")
    (hup : ∀ c ∈ comps.take (D + 1),
      ¬(c.type = some "outlet" ∨ c.type = some "tee_main" ∨ c.type = some "tee_side"))
    (hout : ∃ c ∈ comps, c.type = some "outlet") :
    ∀ path ∈ fallbackPath comps D,
      path.head? = some dc ∧ ∃ c, path.getLast? = some c ∧ c.type = some "outlet" := by
  obtain ⟨co, hco, hcot⟩ := hout
  have hsome := lastIdxP_isSome (fun c => decide (c.type = some "outlet")) comps co hco
    (by simp [hcot])
  unfold fallbackPath
  cases hlo : lastIdxP (fun c => decide (c.type = some "outlet")) comps with
  | none => rw [hlo] at hsome; simp at hsome
  | some lo =>
    intro path h
    simp only [] at h
    obtain ⟨c, hc, hp⟩ := lastIdxP_sound _ comps lo hlo
    have hct : c.type = some "outlet" := by simpa using hp
    have hDlo : D < lo := idx_after_D comps D hup hc (Or.inl hct)
    have hpath : path = slice comps D (lo + 1) := by simpa using h
    constructor
    · rw [hpath, slice_head comps D (lo + 1) (by omega), hDc]
    · refine ⟨c, ?_, hct⟩
      rw [hpath]
      unfold slice
      have hidx : lo + 1 - D = (lo - D) + 1 := by omega
      rw [hidx]
      apply getLast?_take_succ
      rw [List.get?_drop]
      have : D + (lo - D) = lo := by omega
      rw [this]
      exact hc

lemma metaOf_path (p : List EquationsComponent) : (metaOf p).path = p := by
  unfold metaOf
  split <;> rfl

lemma insDesc_perm (m : PathMeta) : ∀ l, List.Perm (insDesc m l) (m :: l) := by
  intro l
  induction l with
  | nil => exact List.Perm.refl _
  | cons b bs ih =>
    rw [insDesc]
    by_cases hb : b.distFromTee ≤ m.distFromTee
    · rw [if_pos hb]
    · rw [if_neg hb]
      exact (ih.cons b).trans (List.Perm.swap m b bs)

lemma sortDistDesc_perm : ∀ l, List.Perm (sortDistDesc l) l := by
  intro l
  induction l with
  | nil => exact List.Perm.refl _
  | cons m ms ih =>
    rw [sortDistDesc]
    exact (insDesc_perm m (sortDistDesc ms)).trans (ih.cons m)

lemma foldl_best_mem : ∀ (l : List PathMeta) (b : PathMeta),
    l.foldl (fun best m => if best.distFromTee < m.distFromTee then m else best) b ∈ b :: l := by
  intro l
  induction l with
  | nil => intro b; exact List.mem_cons_self _ _
  | cons m ms ih =>
    intro b
    have h := ih (if b.distFromTee < m.distFromTee then m else b)
    rcases List.mem_cons.mp h with h' | h'
    · rw [List.foldl_cons, h']
      by_cases hbm : b.distFromTee < m.distFromTee
      · rw [if_pos hbm]
        exact List.mem_cons_of_mem _ (List.mem_cons_self _ _)
      · rw [if_neg hbm]
        exact List.mem_cons_self _ _
    · rw [List.foldl_cons]
      exact List.mem_cons_of_mem _ (List.mem_cons_of_mem _ h')

lemma pickBest_mem (w0 : PathMeta) (ws : List PathMeta) : pickBest w0 ws ∈ w0 :: ws := by
  have h := foldl_best_mem (w0 :: ws) w0
  rcases List.mem_cons.mp h with h' | h'
  · rw [pickBest, h']
    exact List.mem_cons_self _ _
  · exact h'

lemma mem_of_head? {α : Type} {l : List α} {a : α} (h : l.head? = some a) : a ∈ l := by
  cases l with
  | nil => simp at h
  | cons b rest =>
    have : b = a := by simpa using h
    exact this ▸ List.mem_cons_self _ _

lemma orderRest_perm (metas : List PathMeta) (fm : PathMeta) (hm : fm ∈ metas) :
    List.Perm (orderRest metas fm) metas := by
  unfold orderRest
  have hperm1 : List.Perm metas (fm :: metas.erase fm) := List.perm_cons_erase hm
  cases hs : (sortDistDesc ((metas.erase fm).filter
      (fun m => decide (m.teeRef = fm.teeRef)))).head? with
  | none =>
    exact ((sortDistDesc_perm _).cons fm).trans hperm1.symm
  | some s =>
    have hsmem : s ∈ metas.erase fm := by
      have h1 := mem_of_head? hs
      have h2 := (sortDistDesc_perm _).mem_iff.mp h1
      exact List.mem_of_mem_filter h2
    have hperm2 : List.Perm (metas.erase fm) (s :: (metas.erase fm).erase s) :=
      List.perm_cons_erase hsmem
    have h3 : List.Perm (fm :: s :: sortDistDesc ((metas.erase fm).erase s))
        (fm :: s :: (metas.erase fm).erase s) :=
      ((sortDistDesc_perm _).cons s).cons fm
    exact h3.trans ((hperm2.symm.cons fm).trans hperm1.symm)

lemma orderPaths_perm (l : List (List EquationsComponent)) :
    List.Perm (orderPaths l) l := by
  unfold orderPaths
  cases hw : (l.map metaOf).filter (fun m => m.teeRef.isSome && decide (0 < m.distFromTee)) with
  | nil => exact List.Perm.refl l
  | cons w0 ws =>
    have hbest : pickBest w0 ws ∈ l.map metaOf := by
      have h1 : pickBest w0 ws ∈ w0 :: ws := pickBest_mem w0 ws
      rw [← hw] at h1
      exact List.mem_of_mem_filter h1
    have h2 : List.Perm (orderRest (l.map metaOf) (pickBest w0 ws)) (l.map metaOf) :=
      orderRest_perm _ _ hbest
    have h3 := h2.map (fun m : PathMeta => m.path)
    have h4 : (l.map metaOf).map (fun m : PathMeta => m.path) = l := by
      rw [List.map_map]
      have h5 : l.map (fun p => (metaOf p).path) = l.map id :=
        List.map_eq_map_iff.mpr (fun p _ => metaOf_path p)
      rw [show ((fun m : PathMeta => m.path) ∘ metaOf) = fun p => (metaOf p).path from rfl, h5,
        List.map_id]
    rw [h4] at h3
    exact h3

/-- The fallback always yields exactly one path. -/
lemma fallbackPath_singleton (comps : List EquationsComponent) (D : ℕ) :
    ∃ p, fallbackPath comps D = [p] := by
  unfold fallbackPath
  cases lastIdxP (fun c => decide (c.type = some "outlet")) comps with
  | none => exact ⟨comps.drop D, rfl⟩
  | some lo => exact ⟨slice comps D (lo + 1), rfl⟩

/-- Counterexample for C6 as stated: in `[outlet, discharge]` a
discharge exists (at index 1), yet `splitByOutlet` returns the single
EMPTY path — the only outlet lies before the discharge, so the sliced
candidate is empty — and an empty path neither begins at the discharge
nor ends at an outlet. -/
theorem splitByOutlet_invariant_counterexample :
    splitByOutlet
        [{ component := CompKind.node, id := 0, type := some "outlet" },
         { component := CompKind.node, id := 1, type := some "discharge" }] = [[]]
    ∧ List.findIdx? (fun c => decide (c.type = some "discharge"))
        ([{ component := CompKind.node, id := 0, type := some "outlet" },
          { component := CompKind.node, id := 1, type := some "discharge" }] :
          List EquationsComponent) = some 1
    ∧ ([] : List EquationsComponent).head? = none :=
  ⟨by decide, by decide, rfl⟩

/-- C6 (amended): when a discharge exists, at least one outlet exists,
and every outlet / `tee_main` / `tee_side` lies strictly after the
discharge in draw order (as in any well-formed drawing), every output
path of `splitByOutlet` begins at the discharge, ends at an outlet, and
distinct output paths end at distinct outlet identities. -/
theorem splitByOutlet_invariant (comps : List EquationsComponent) (D : ℕ)
    (hD : comps.findIdx? (fun c => decide (c.type = some "discharge")) = some D)
    (hup : ∀ c ∈ comps.take (D + 1),
      ¬(c.type = some "outlet" ∨ c.type = some "tee_main" ∨ c.type = some "tee_side"))
    (hout : ∃ c ∈ comps, c.type = some "outlet") :
    (∀ path ∈ splitByOutlet comps,
        (∃ c, path.head? = some c ∧ c.type = some "discharge") ∧
        (∃ c, path.getLast? = some c ∧ c.type = some "outlet"))
    ∧ (splitByOutlet comps).Pairwise
        (fun p q => p.getLast?.map (·.id) ≠ q.getLast?.map (·.id)) := by
  obtain ⟨-, dc, hDc0, hdcp⟩ := findIdx?_spec _ comps 0 D hD
  rw [Nat.sub_zero] at hDc0
  have hdc : dc.type = some "discharge" := by simpa using hdcp
  have hprops : (∀ path ∈ (if (dedupGo [] (candLoop comps D (buildRefMap "tee_side" comps)
        (buildRefMap "tee_main" comps))).isEmpty then fallbackPath comps D
        else dedupGo [] (candLoop comps D (buildRefMap "tee_side" comps)
          (buildRefMap "tee_main" comps))),
        (∃ c, path.head? = some c ∧ c.type = some "discharge") ∧
        (∃ c, path.getLast? = some c ∧ c.type = some "outlet"))
      ∧ (if (dedupGo [] (candLoop comps D (buildRefMap "tee_side" comps)
          (buildRefMap "tee_main" comps))).isEmpty then fallbackPath comps D
          else dedupGo [] (candLoop comps D (buildRefMap "tee_side" comps)
            (buildRefMap "tee_main" comps))).Pairwise
          (fun p q => p.getLast?.map (·.id) ≠ q.getLast?.map (·.id)) := by
    by_cases hemp : (dedupGo [] (candLoop comps D (buildRefMap "tee_side" comps)
        (buildRefMap "tee_main" comps))).isEmpty = true
    · rw [if_pos hemp]
      constructor
      · intro path hpath
        obtain ⟨hhead, hlast⟩ := fallbackPath_spec comps D dc hDc0 hdc hup hout path hpath
        exact ⟨⟨dc, hhead, hdc⟩, hlast⟩
      · obtain ⟨p, hp⟩ := fallbackPath_singleton comps D
        rw [hp]
        exact List.pairwise_singleton _ _
    · rw [if_neg hemp]
      constructor
      · intro path hpath
        obtain ⟨cand, hcand, li, c, hli, hc, hct, hpatheq, -⟩ :=
          dedupGo_shape _ [] path hpath
        have hcandhead : cand.head? = some dc := by
          refine candLoop_head comps D dc hDc0 hdc hup
            (buildRefMap "tee_side" comps) ?_ (buildRefMap "tee_main" comps) ?_ cand hcand
          · intro kv hkv
            obtain ⟨cc, hcc, hcct, -⟩ := buildRefMap_mem "tee_side" comps kv.1 kv.2 hkv
            exact ⟨cc, hcc, hcct⟩
          · intro kv hkv
            obtain ⟨cc, hcc, hcct, -⟩ := buildRefMap_mem "tee_main" comps kv.1 kv.2 hkv
            exact ⟨cc, hcc, hcct⟩
        constructor
        · refine ⟨dc, ?_, hdc⟩
          rw [hpatheq, head?_take (by omega : 0 < li + 1)]
          exact hcandhead
        · refine ⟨c, ?_, hct⟩
          rw [hpatheq]
          exact getLast?_take_succ cand li c hc
      · exact dedupGo_pairwise _ []
  have hne : comps ≠ [] := by
    intro hnil
    rw [hnil] at hDc0
    simp at hDc0
  have hsplit : splitByOutlet comps =
      orderPaths (if (dedupGo [] (candLoop comps D (buildRefMap "tee_side" comps)
        (buildRefMap "tee_main" comps))).isEmpty then fallbackPath comps D
        else dedupGo [] (candLoop comps D (buildRefMap "tee_side" comps)
          (buildRefMap "tee_main" comps))) := by
    cases comps with
    | nil => exact absurd rfl hne
    | cons c0 rest =>
      unfold splitByOutlet
      rw [hD]
  have hperm := orderPaths_perm (if (dedupGo [] (candLoop comps D
      (buildRefMap "tee_side" comps) (buildRefMap "tee_main" comps))).isEmpty
      then fallbackPath comps D
      else dedupGo [] (candLoop comps D (buildRefMap "tee_side" comps)
        (buildRefMap "tee_main" comps)))
  constructor
  · intro path hpath
    rw [hsplit] at hpath
    exact hprops.1 path (hperm.mem_iff.mp hpath)
  · rw [hsplit]
    exact (List.Perm.pairwise_iff (fun hxy => Ne.symm hxy) hperm).mpr hprops.2

/-- Witness for C6 at the concrete input `[discharge, pipe, outlet]`. -/
theorem splitByOutlet_invariant_witness :
    (List.findIdx? (fun c => decide (c.type = some "discharge"))
        ([{ component := CompKind.node, id := 0, type := some "discharge" },
          { component := CompKind.edge, id := 1, type := some "pipe" },
          { component := CompKind.node, id := 2, type := some "outlet", capacity := some 5 }] :
          List EquationsComponent)
      = some 0)
    ∧ (∀ path ∈ splitByOutlet
        [{ component := CompKind.node, id := 0, type := some "discharge" },
         { component := CompKind.edge, id := 1, type := some "pipe" },
         { component := CompKind.node, id := 2, type := some "outlet", capacity := some 5 }],
        (∃ c, path.head? = some c ∧ c.type = some "discharge") ∧
        (∃ c, path.getLast? = some c ∧ c.type = some "outlet"))
    ∧ (splitByOutlet
        [{ component := CompKind.node, id := 0, type := some "discharge" },
         { component := CompKind.edge, id := 1, type := some "pipe" },
         { component := CompKind.node, id := 2, type := some "outlet", capacity := some 5 }]).Pairwise
        (fun p q => p.getLast?.map (·.id) ≠ q.getLast?.map (·.id)) :=
  ⟨by decide,
    (splitByOutlet_invariant
      [{ component := CompKind.node, id := 0, type := some "discharge" },
       { component := CompKind.edge, id := 1, type := some "pipe" },
       { component := CompKind.node, id := 2, type := some "outlet", capacity := some 5 }]
      0 (by decide) (by decide) (by decide)).1,
    (splitByOutlet_invariant
      [{ component := CompKind.node, id := 0, type := some "discharge" },
       { component := CompKind.edge, id := 1, type := some "pipe" },
       { component := CompKind.node, id := 2, type := some "outlet", capacity := some 5 }]
      0 (by decide) (by decide) (by decide)).2⟩

/-! ### Normalizer support (`fillTee`) and geometry helpers -/

/-- JS `splice(i, 0, x)` (appends when `i` exceeds the length). -/
def insertAt {α : Type} : ℕ → α → List α → List α
  | 0, x, l => x :: l
  | _ + 1, x, [] => [x]
  | n + 1, x, a :: l => a :: insertAt n x l

/-- `computeVerticalFlag`: a pipe is vertical when its endpoint nodes
share (within tolerance) the same x and differ in y. -/
def computeVerticalFlag (comp : EquationsComponent)
    (components : List EquationsComponent) : Bool :=
  if comp.type ≠ some "pipe" then false
  else
    match comp.fromId, comp.toId with
    | some fid, some tid =>
      match components.find? (fun c => decide (c.component = CompKind.node) && decide (c.id = fid)),
            components.find? (fun c => decide (c.component = CompKind.node) && decide (c.id = tid)) with
      | some fromNode, some toNode =>
        match fromNode.x, toNode.x, fromNode.y, toNode.y with
        | some fx, some tx, some fy, some ty =>
          decide (abs (fx - tx) ≤ 0.001) && decide (0.001 < abs (fy - ty))
        | _, _, _, _ => false
      | _, _ => false
    | _, _ => false

/-- The constructor's canonical copy: per-pipe verticality is computed
once against the raw component list and stamped on the copy. -/
def canonicalOf (comps : List EquationsComponent) : List EquationsComponent :=
  comps.map (fun c =>
    if c.component = CompKind.edge ∧ c.type = some "pipe" then
      { c with vertical := some (computeVerticalFlag c comps) }
    else c)

/-- `isVertical`: prefer the precomputed canonical flag (the
`canonicalComponents` / `input.components` fallback in the source reads
value-identical lists, both modelled by `canon`). -/
def isVertical (canon : List EquationsComponent) (comp : EquationsComponent) : Bool :=
  if comp.type ≠ some "pipe" then false
  else
    match comp.vertical with
    | some b => b
    | none => computeVerticalFlag comp canon

def countElbow (comp : EquationsComponent) : ℚ :=
  if comp.type = some "elbow90" then 2
  else if comp.type = some "elbow45" then 1
  else 0

def getT90 (comp : EquationsComponent) : ℚ :=
  if comp.type = some "tee_main" then 1
  else if comp.type = some "tee_side" then 0.5
  else 0

def getQ90 (comp : EquationsComponent) : ℚ :=
  if comp.type = some "tee_main" then 0.5
  else if comp.type = some "tee_side" then 1
  else 0

def getDi (diameter : ℚ) : ℚ :=
  0.922 * diameter / 1000

def getVelocity (M : MathPrims) (Q di : ℚ) : ℚ :=
  if di = 0 then 0 else Q * 0.004 / (M.pi * di * di)

/-- `startsWith` on the underlying character lists (extensionally equal
to `String.startsWith` on the item strings produced here). -/
def strStartsWith (s p : String) : Bool :=
  p.data.isPrefixOf s.data

/-- `getD90`: diameter of the canonical component drawn immediately
after the tee (draw index + 1). -/
def getD90 (canon : List EquationsComponent) (comp : EquationsComponent) : ℚ :=
  match comp.type with
  | none => 0
  | some t =>
    if ¬ strStartsWith t "tee" then 0
    else
      match comp.draw_index with
      | none => 0
      | some n =>
        match canon.find? (fun c => decide (c.draw_index = some (n + 1))) with
        | some nx => nx.diameter.getD 0
        | none => 0

/-- Step 1 of `fillTee`: every `tee` becomes `tee_main` and receives an
auto-incrementing branch reference if it lacks one. -/
def teePassGo : Int → List EquationsComponent → List EquationsComponent
  | _, [] => []
  | n, c :: rest =>
    if c.type = some "tee" then
      match c.tee_ref with
      | none => { c with tee_ref := some n, type := some "tee_main" } :: teePassGo (n + 1) rest
      | some r => { c with type := some "tee_main" } :: teePassGo (max n (r + 1)) rest
    else c :: teePassGo n rest

def idxsWhereGo (p : EquationsComponent → Bool) : ℕ → List EquationsComponent → List ℕ
  | _, [] => []
  | i, c :: rest => if p c then i :: idxsWhereGo p (i + 1) rest else idxsWhereGo p (i + 1) rest

def idxsWhere (p : EquationsComponent → Bool) (l : List EquationsComponent) : List ℕ :=
  idxsWhereGo p 0 l

/-- Step 2 of `fillTee`: positional pairing of the k-th `tee_main` with
the k-th `outlet`, copying the branch reference onto the outlet. -/
def pairLoop (pairs : List (ℕ × ℕ)) (l0 : List EquationsComponent) : List EquationsComponent :=
  pairs.foldl (fun cur ti_oi =>
    match cur.get? ti_oi.1, cur.get? ti_oi.2 with
    | some tee, some outlet =>
      if outlet.tee_ref = none ∧ tee.tee_ref ≠ none then
        cur.set ti_oi.2 { outlet with tee_ref := tee.tee_ref }
      else cur
    | _, _ => cur) l0

def pipeAt (l : List EquationsComponent) (i : ℕ) : Bool :=
  match l.get? i with
  | some c => decide (c.type = some "pipe")
  | none => false

def findPipeBefore (l : List EquationsComponent) (idx : ℕ) : Option ℕ :=
  (List.range idx).reverse.find? (fun i => pipeAt l i)

def findPipeAfter (l : List EquationsComponent) (idx : ℕ) : Option ℕ :=
  ((l.drop (idx + 1)).findIdx? (fun c => decide (c.type = some "pipe"))).map (· + (idx + 1))

/-- The source's `isPipeVertical`: compares the x coordinates of the
pipe's current list neighbors (JS `arr[idx - 1]` is `undefined` when
`idx` is 0). -/
def isPipeVertical (arr : List EquationsComponent) (idx : ℕ) : Bool :=
  match (if idx = 0 then none else arr.get? (idx - 1)), arr.get? (idx + 1) with
  | some prev, some next =>
    match prev.x, next.x with
    | some px, some nx => decide (abs (px - nx) ≤ 0.001)
    | _, _ => false
  | _, _ => false

/-- Step 3 of `fillTee`: splice an `elbow90` after a `tee_main` whose
nearest pipes before/after differ in verticality; `off` tracks earlier
splices. -/
def elbowStep (cur : List EquationsComponent) (off : ℕ) (teeIdx : ℕ) :
    List EquationsComponent × ℕ :=
  match findPipeBefore cur (teeIdx + off), findPipeAfter cur (teeIdx + off) with
  | some bi, some ai =>
    if isPipeVertical cur bi ≠ isPipeVertical cur ai then
      (insertAt (teeIdx + off + 1)
        { component := CompKind.node, id := (cur.length : Int), type := some "elbow90",
          fromId := some (cur.getD (teeIdx + off) dfltEC).id,
          toId := (cur.get? (teeIdx + off + 1)).map (·.id),
          x := (cur.getD (teeIdx + off) dfltEC).x,
          y := (cur.getD (teeIdx + off) dfltEC).y,
          tee_ref := (cur.getD (teeIdx + off) dfltEC).tee_ref } cur,
       off + 1)
    else (cur, off)
  | _, _ => (cur, off)

def elbowLoop (teeIdxs : List ℕ) (l0 : List EquationsComponent) : List EquationsComponent :=
  (teeIdxs.foldl (fun st ti => elbowStep st.1 st.2 ti) (l0, 0)).1

/-- Steps 4–5 of `fillTee`: splice `tee_side` + `elbow45` after each
outlet that has a branch reference but no matching `tee_side` yet. -/
def sideInsert (cur : List EquationsComponent) (oi : ℕ) (outlet : EquationsComponent)
    (next : Option EquationsComponent) : List EquationsComponent :=
  insertAt (oi + 2)
    { component := CompKind.node,
      id := ((insertAt (oi + 1)
        { component := CompKind.node, id := (cur.length : Int), type := some "tee_side",
          fromId := some outlet.id, toId := next.map (·.id),
          x := outlet.x, y := outlet.y, tee_ref := outlet.tee_ref,
          draw_index := outlet.draw_index } cur).length : Int) + 1,
      type := some "elbow45",
      fromId := some (cur.length : Int), toId := next.map (·.id),
      x := outlet.x, y := outlet.y, tee_ref := outlet.tee_ref }
    (insertAt (oi + 1)
      { component := CompKind.node, id := (cur.length : Int), type := some "tee_side",
        fromId := some outlet.id, toId := next.map (·.id),
        x := outlet.x, y := outlet.y, tee_ref := outlet.tee_ref,
        draw_index := outlet.draw_index } cur)

def sideStep (cur : List EquationsComponent) (oi : ℕ) : List EquationsComponent :=
  match cur.get? oi with
  | none => cur
  | some outlet =>
    match cur.get? (oi + 1) with
    | some nx =>
      if nx.type = some "tee_side" ∧ nx.tee_ref = outlet.tee_ref then cur
      else sideInsert cur oi outlet (some nx)
    | none => sideInsert cur oi outlet none

def sideLoop (outletIdxs : List ℕ) (l0 : List EquationsComponent) : List EquationsComponent :=
  outletIdxs.foldl sideStep l0

/-- `fillTee`: tee normalization, positional outlet pairing, forced
elbow insertion, synthetic side-branch insertion. -/
def fillTee (comps : List EquationsComponent) : List EquationsComponent :=
  sideLoop
    ((idxsWhere (fun c => decide (c.type = some "outlet") && decide (c.tee_ref ≠ none))
      (elbowLoop (idxsWhere (fun c => decide (c.type = some "tee_main")) (teePassGo 0 comps))
        (pairLoop
          ((idxsWhere (fun c => decide (c.type = some "tee_main")) (teePassGo 0 comps)).zip
            (idxsWhere (fun c => decide (c.type = some "outlet")) (teePassGo 0 comps)))
          (teePassGo 0 comps)))).reverse)
    (elbowLoop (idxsWhere (fun c => decide (c.type = some "tee_main")) (teePassGo 0 comps))
      (pairLoop
        ((idxsWhere (fun c => decide (c.type = some "tee_main")) (teePassGo 0 comps)).zip
          (idxsWhere (fun c => decide (c.type = some "outlet")) (teePassGo 0 comps)))
        (teePassGo 0 comps)))

/-! ### Row projection (`preNormalize`) and the evaluator (`normalize`) -/

def mapWithIndexGo {α β : Type} (f : ℕ → α → β) : ℕ → List α → List β
  | _, [] => []
  | i, c :: rest => f i c :: mapWithIndexGo f (i + 1) rest

/-- One display row per component (`preNormalize` body).  The row index
is the stable `draw_index` when present, else the 1-based position in
the sliced path. -/
def mkRow (M : MathPrims) (canon : List EquationsComponent) (i : ℕ)
    (c : EquationsComponent) : EquationRow :=
  { index := match c.draw_index with | some n => n | none => (i : Int) + 1,
    item := c.type.getD "",
    Q := c.capacity.getD 0,
    d := c.diameter.getD 0,
    L := c.length.getD 0,
    vertical := isVertical canon c,
    elbow := countElbow c,
    reducer := decide (c.type = some "reducer"),
    t90 := getT90 c,
    d90 := getD90 canon c,
    q90 := getQ90 c,
    di := getDi (c.diameter.getD 0),
    V := getVelocity M (c.capacity.getD 0) (getDi (c.diameter.getD 0)),
    h := 0, Re := 0, f := 0, a := 0, ktee := 0, kred := 0, ktotal := 0,
    vp := 0, delta_H := 0, delta_P := 0 }

def preNormalize (M : MathPrims) (canon : List EquationsComponent)
    (paths : List (List EquationsComponent)) : List (List EquationRow) :=
  paths.map (fun p => mapWithIndexGo (mkRow M canon) 0 p)

/-- `vertical ? 1 : 0`. -/
def bq (b : Bool) : ℚ := if b then 1 else 0

/-- Cumulative elevation head and area ratio (the `i = 1 .. n-1` loop;
`prev` is the already-updated predecessor, the lookahead `next` is the
untouched successor — its `di` is never modified by this pass). -/
def haGo (prev : EquationRow) : List EquationRow → List EquationRow
  | [] => []
  | [c] =>
    [{ c with h := c.h + (prev.h + prev.L * bq prev.vertical), a := prev.a }]
  | c :: next :: rest =>
    { c with h := c.h + (prev.h + prev.L * bq prev.vertical),
             a := if next.di = 0 then 0 else (c.di / next.di) ^ 2 } ::
      haGo { c with h := c.h + (prev.h + prev.L * bq prev.vertical),
                    a := if next.di = 0 then 0 else (c.di / next.di) ^ 2 } (next :: rest)

def pass_ha : List EquationRow → List EquationRow
  | [] => []
  | r :: rest => r :: haGo r rest

/-- Reynolds number and velocity head. -/
def rowReVp (c : EquationRow) : EquationRow :=
  { c with Re := if c.di = 0 then 0 else c.di * c.V / 0.000001,
           vp := c.V * c.V / (2 * 9.81) }

/-- Darcy friction factor (pipes only, guarded by `d > 0 && Re > 0`). -/
def rowF (M : MathPrims) (c : EquationRow) : EquationRow :=
  if c.item = "pipe" then
    if 0 < c.d ∧ 0 < c.Re then
      { c with f := 1 / (0.86 * M.log (0.2 / (c.d * 3.7) + 5.74 / M.pow09 c.Re)) ^ 2 }
    else { c with f := 0 }
  else c

/-- Force the discharge's area ratio to 1 before the reducer losses. -/
def rowDischargeA (c : EquationRow) : EquationRow :=
  if c.item = "discharge" then { c with a := 1 } else c

/-- Reducer loss coefficient from the area ratio. -/
def rowKred (c : EquationRow) : EquationRow :=
  if 1 < c.a then { c with kred := (c.a - 1) ^ 2 }
  else if c.a = 1 then { c with kred := 0 }
  else { c with kred := -0.513 * c.a + 0.51 }

/-- Tee loss coefficient (`T = 1` placeholder constant kept from the
source; the `continue` on `d === 0` leaves `ktee` untouched). -/
def rowKtee (c : EquationRow) : EquationRow :=
  if c.item ≠ "" ∧ strStartsWith c.item "tee" then
    if c.d = 0 then c
    else
      if c.t90 = 1 then
        { c with ktee :=
            (if 0.35 < (c.d90 / c.d) ^ 2 then 0.55 else 1) *
              (1 + (c.q90 / (c.d90 / c.d) ^ 2) ^ 2 - 2 * (1 - c.q90) ^ 2
                - 1.414 * c.q90 ^ 2 / 1) }
      else if c.t90 = 0.5 then
        if c.d90 ≠ 0 then { c with ktee := 0.75 - 0.35 / ((c.d90 / c.d) ^ 2) } else c
      else c
  else c

/-- Total loss coefficient and local head loss (the dead
`updated[0].ktotal = updated[0].ktotal ?? 1` of the source is the
identity in the total-field model and is omitted). -/
def rowKtotal (c : EquationRow) : EquationRow :=
  if c.item = "discharge" then
    { c with a := 1, ktotal := 1, delta_H := 1 * c.vp }
  else
    { c with
      ktotal := (if c.di = 0 then 0 else c.f * (c.L / c.di)) + c.elbow * 0.2 + c.kred + c.ktee,
      delta_H := ((if c.di = 0 then 0 else c.f * (c.L / c.di)) + c.elbow * 0.2 + c.kred + c.ktee)
        * c.vp }

def fixRowDH (p last : EquationRow) : EquationRow :=
  if last.delta_H = 0 then { last with delta_H := p.delta_H } else last

def fixGo (prev : EquationRow) : List EquationRow → List EquationRow
  | [] => []
  | [last] => [fixRowDH prev last]
  | c :: d :: rest => c :: fixGo c (d :: rest)

/-- If the last row has zero local loss, copy the previous row's
`delta_H` (only when the path has at least two rows). -/
def fixLastDeltaH : List EquationRow → List EquationRow
  | [] => []
  | [r] => [r]
  | a :: b :: rest => a :: fixGo a (b :: rest)

/-- One step of the pressure accumulation. -/
def updP (prev c : EquationRow) : EquationRow :=
  { c with delta_P := prev.delta_P + prev.delta_H + (prev.h - c.h) + (prev.vp - c.vp) }

def p9Go (prev : EquationRow) : List EquationRow → List EquationRow
  | [] => []
  | c :: rest => updP prev c :: p9Go (updP prev c) rest

/-- Pressure accumulation: the first row keeps its `delta_P`. -/
def pass9 : List EquationRow → List EquationRow
  | [] => []
  | r :: rest => r :: p9Go r rest

/-- The per-path evaluator (`normalize` body). -/
def normalizePath (M : MathPrims) (l : List EquationRow) : List EquationRow :=
  pass9 (fixLastDeltaH
    ((((((pass_ha l).map rowReVp).map (rowF M)).map rowDischargeA).map rowKred).map rowKtee
      |>.map rowKtotal))

def normalize (M : MathPrims) (paths : List (List EquationRow)) : List (List EquationRow) :=
  paths.map (normalizePath M)

/-! ### The full pipeline (`Calculations` constructor) -/

/-- `organize`: tee/capacity/diameter fill, outlet split, reducers. -/
def organize (comps : List EquationsComponent) : List (List EquationsComponent) :=
  insertReducersForDiameterChanges (splitByOutlet (fillDiameter (fillCapacity (fillTee comps))))

/-- The per-outlet paths as organized from the canonical copy. -/
def calcPaths (comps : List EquationsComponent) : List (List EquationsComponent) :=
  organize (canonicalOf comps)

/-- The rows produced by one `Calculations` invocation (`toRows`). -/
def calcRows (M : MathPrims) (comps : List EquationsComponent) : List (List EquationRow) :=
  normalize M (preNormalize M (canonicalOf comps) (calcPaths comps))

/-! ### Elementwise preservation lemmas for the evaluator passes -/

lemma getD_map_total {α β : Type} (f : α → β) (d : α) (d' : β) (hf : f d = d') :
    ∀ (l : List α) (i : ℕ), (l.map f).getD i d' = f (l.getD i d) := by
  intro l
  induction l with
  | nil => intro i; simpa using hf.symm
  | cons a rest ih =>
    intro i
    match i with
    | 0 => rfl
    | j + 1 => exact ih j

lemma getD_map_lt {α β : Type} (f : α → β) (d : α) (d' : β) :
    ∀ (l : List α) (i : ℕ), i < l.length → (l.map f).getD i d' = f (l.getD i d) := by
  intro l
  induction l with
  | nil => intro i h; simp at h
  | cons a rest ih =>
    intro i h
    match i with
    | 0 => rfl
    | j + 1 => exact ih j (by simpa using h)

lemma mapWithIndexGo_length {α β : Type} (f : ℕ → α → β) :
    ∀ (l : List α) (k : ℕ), (mapWithIndexGo f k l).length = l.length := by
  intro l
  induction l with
  | nil => intro k; rfl
  | cons a rest ih => intro k; show (f k a :: mapWithIndexGo f (k + 1) rest).length = _; simp [ih]

lemma mapWithIndexGo_getD {α β : Type} (f : ℕ → α → β) (d : α) (d' : β) :
    ∀ (l : List α) (k i : ℕ), i < l.length →
    (mapWithIndexGo f k l).getD i d' = f (k + i) (l.getD i d) := by
  intro l
  induction l with
  | nil => intro k i h; simp at h
  | cons a rest ih =>
    intro k i h
    match i with
    | 0 => rfl
    | j + 1 =>
      show (mapWithIndexGo f (k + 1) rest).getD j d' = f (k + (j + 1)) (rest.getD j d)
      rw [ih (k + 1) j (by simpa using h)]
      congr 1
      omega

lemma haGo_length : ∀ (l : List EquationRow) (prev : EquationRow),
    (haGo prev l).length = l.length := by
  intro l
  induction l with
  | nil => intro prev; rfl
  | cons c rest ih =>
    intro prev
    cases rest with
    | nil => rfl
    | cons next rest' =>
      show (_ :: haGo _ (next :: rest')).length = _
      simp [ih]

lemma pass_ha_length (l : List EquationRow) : (pass_ha l).length = l.length := by
  cases l with
  | nil => rfl
  | cons r rest => show (r :: haGo r rest).length = _; simp [haGo_length]

lemma fixGo_length : ∀ (l : List EquationRow) (prev : EquationRow),
    (fixGo prev l).length = l.length := by
  intro l
  induction l with
  | nil => intro prev; rfl
  | cons c rest ih =>
    intro prev
    cases rest with
    | nil => rfl
    | cons d rest' =>
      show (c :: fixGo c (d :: rest')).length = _
      simp [ih]

lemma fixLastDeltaH_length (l : List EquationRow) : (fixLastDeltaH l).length = l.length := by
  match l with
  | [] => rfl
  | [r] => rfl
  | a :: b :: rest =>
    show (a :: fixGo a (b :: rest)).length = _
    simp [fixGo_length]

lemma p9Go_length : ∀ (l : List EquationRow) (prev : EquationRow),
    (p9Go prev l).length = l.length := by
  intro l
  induction l with
  | nil => intro prev; rfl
  | cons c rest ih =>
    intro prev
    show (updP prev c :: p9Go (updP prev c) rest).length = _
    simp [ih]

lemma pass9_length (l : List EquationRow) : (pass9 l).length = l.length := by
  cases l with
  | nil => rfl
  | cons r rest => show (r :: p9Go r rest).length = _; simp [p9Go_length]

lemma normalizePath_length (M : MathPrims) (l : List EquationRow) :
    (normalizePath M l).length = l.length := by
  unfold normalizePath
  rw [pass9_length, fixLastDeltaH_length]
  simp [pass_ha_length]

/-- Generic elementwise preservation through the h/a pass: any
projection that ignores `h` and `a` is unchanged. -/
lemma haGo_proj {γ : Type} (φ : EquationRow → γ)
    (hφ : ∀ c h' a', φ { c with h := h', a := a' } = φ c) :
    ∀ (l : List EquationRow) (prev : EquationRow) (i : ℕ),
    φ ((haGo prev l).getD i dfltRow) = φ (l.getD i dfltRow) := by
  intro l
  induction l with
  | nil => intro prev i; rfl
  | cons c rest ih =>
    intro prev i
    cases rest with
    | nil =>
      match i with
      | 0 => exact hφ c _ _
      | j + 1 => rfl
    | cons next rest' =>
      match i with
      | 0 => exact hφ c _ _
      | j + 1 => exact ih _ j

lemma pass_ha_proj {γ : Type} (φ : EquationRow → γ)
    (hφ : ∀ c h' a', φ { c with h := h', a := a' } = φ c) (l : List EquationRow) (i : ℕ) :
    φ ((pass_ha l).getD i dfltRow) = φ (l.getD i dfltRow) := by
  cases l with
  | nil => rfl
  | cons r rest =>
    match i with
    | 0 => rfl
    | j + 1 => exact haGo_proj φ hφ rest r j

lemma pass_ha_getD0 (l : List EquationRow) :
    (pass_ha l).getD 0 dfltRow = l.getD 0 dfltRow := by
  cases l <;> rfl

/-- Generic elementwise preservation through the last-`delta_H` fixup. -/
lemma fixGo_proj {γ : Type} (φ : EquationRow → γ)
    (hφ : ∀ c v, φ { c with delta_H := v } = φ c) :
    ∀ (l : List EquationRow) (prev : EquationRow) (i : ℕ),
    φ ((fixGo prev l).getD i dfltRow) = φ (l.getD i dfltRow) := by
  intro l
  induction l with
  | nil => intro prev i; rfl
  | cons c rest ih =>
    intro prev i
    cases rest with
    | nil =>
      match i with
      | 0 =>
        show φ (fixRowDH prev c) = φ c
        unfold fixRowDH
        split
        · exact hφ c _
        · rfl
      | j + 1 => rfl
    | cons d rest' =>
      match i with
      | 0 => rfl
      | j + 1 => exact ih _ j

lemma fixLastDeltaH_proj {γ : Type} (φ : EquationRow → γ)
    (hφ : ∀ c v, φ { c with delta_H := v } = φ c) (l : List EquationRow) (i : ℕ) :
    φ ((fixLastDeltaH l).getD i dfltRow) = φ (l.getD i dfltRow) := by
  match l with
  | [] => rfl
  | [r] => rfl
  | a :: b :: rest =>
    match i with
    | 0 => rfl
    | j + 1 => exact fixGo_proj φ hφ (b :: rest) a j

/-- Generic elementwise preservation through the pressure pass. -/
lemma p9Go_proj {γ : Type} (φ : EquationRow → γ)
    (hφ : ∀ c v, φ { c with delta_P := v } = φ c) :
    ∀ (l : List EquationRow) (prev : EquationRow) (i : ℕ),
    φ ((p9Go prev l).getD i dfltRow) = φ (l.getD i dfltRow) := by
  intro l
  induction l with
  | nil => intro prev i; rfl
  | cons c rest ih =>
    intro prev i
    match i with
    | 0 => exact hφ c _
    | j + 1 => exact ih _ j

lemma pass9_proj {γ : Type} (φ : EquationRow → γ)
    (hφ : ∀ c v, φ { c with delta_P := v } = φ c) (l : List EquationRow) (i : ℕ) :
    φ ((pass9 l).getD i dfltRow) = φ (l.getD i dfltRow) := by
  cases l with
  | nil => rfl
  | cons r rest =>
    match i with
    | 0 => rfl
    | j + 1 => exact p9Go_proj φ hφ rest r j

lemma pass9_getD0 (l : List EquationRow) :
    (pass9 l).getD 0 dfltRow = l.getD 0 dfltRow := by
  cases l <;> rfl

/-- The one step of the pressure recurrence, phrased on the output list
(the threaded `prev` of `p9Go` is the previous output row). -/
lemma p9Go_spec : ∀ (l : List EquationRow) (prev : EquationRow) (i : ℕ), i < l.length →
    (prev :: p9Go prev l).getD (i + 1) dfltRow =
      updP ((prev :: p9Go prev l).getD i dfltRow) (l.getD i dfltRow) := by
  intro l
  induction l with
  | nil => intro prev i h; simp at h
  | cons c rest ih =>
    intro prev i h
    match i with
    | 0 => rfl
    | j + 1 =>
      show (updP prev c :: p9Go (updP prev c) rest).getD (j + 1) dfltRow =
        updP ((updP prev c :: p9Go (updP prev c) rest).getD j dfltRow) (rest.getD j dfltRow)
      exact ih (updP prev c) j (by simpa using h)

/-- The self-referential pressure recurrence on the evaluator output. -/
lemma pass9_recurrence (l : List EquationRow) (i : ℕ) (h : i + 1 < (pass9 l).length) :
    (((pass9 l).getD (i + 1) dfltRow).delta_P =
      ((pass9 l).getD i dfltRow).delta_P + ((pass9 l).getD i dfltRow).delta_H
      + (((pass9 l).getD i dfltRow).h - ((pass9 l).getD (i + 1) dfltRow).h)
      + (((pass9 l).getD i dfltRow).vp - ((pass9 l).getD (i + 1) dfltRow).vp)) := by
  cases l with
  | nil => simp [pass9] at h
  | cons r rest =>
    have hlen : (pass9 (r :: rest)).length = rest.length + 1 := by
      show (r :: p9Go r rest).length = _
      simp [p9Go_length]
    have hi : i < rest.length := by
      rw [hlen] at h
      omega
    have hspec := p9Go_spec rest r i hi
    show ((r :: p9Go r rest).getD (i + 1) dfltRow).delta_P = _
    rw [show pass9 (r :: rest) = r :: p9Go r rest from rfl] at h ⊢
    rw [hspec]
    rfl

lemma rowReVp_delta_P (c : EquationRow) : (rowReVp c).delta_P = c.delta_P := rfl

lemma rowF_delta_P (M : MathPrims) (c : EquationRow) : (rowF M c).delta_P = c.delta_P := by
  unfold rowF
  split_ifs <;> rfl

lemma rowDischargeA_delta_P (c : EquationRow) : (rowDischargeA c).delta_P = c.delta_P := by
  unfold rowDischargeA
  split_ifs <;> rfl

lemma rowKred_delta_P (c : EquationRow) : (rowKred c).delta_P = c.delta_P := by
  unfold rowKred
  split_ifs <;> rfl

lemma rowKtee_delta_P (c : EquationRow) : (rowKtee c).delta_P = c.delta_P := by
  unfold rowKtee
  split_ifs <;> rfl

lemma rowKtotal_delta_P (c : EquationRow) : (rowKtotal c).delta_P = c.delta_P := by
  unfold rowKtotal
  split_ifs <;> rfl

/-- C3: in every evaluated path, the first row has `delta_P = 0`, and
each later row satisfies
`delta_P[i] = delta_P[i-1] + delta_H[i-1] + (h[i-1] − h[i]) + (vp[i-1] − vp[i])`,
all fields read from the produced rows themselves. -/
theorem delta_P_accumulation (M : MathPrims) (comps : List EquationsComponent) (p i : ℕ)
    (h : i + 1 < ((calcRows M comps).getD p []).length) :
    ((((calcRows M comps).getD p []).getD 0 dfltRow).delta_P = 0)
    ∧ (((calcRows M comps).getD p []).getD (i + 1) dfltRow).delta_P =
        (((calcRows M comps).getD p []).getD i dfltRow).delta_P
        + (((calcRows M comps).getD p []).getD i dfltRow).delta_H
        + ((((calcRows M comps).getD p []).getD i dfltRow).h
            - (((calcRows M comps).getD p []).getD (i + 1) dfltRow).h)
        + ((((calcRows M comps).getD p []).getD i dfltRow).vp
            - (((calcRows M comps).getD p []).getD (i + 1) dfltRow).vp) := by
  have hpath : (calcRows M comps).getD p [] =
      normalizePath M ((preNormalize M (canonicalOf comps) (calcPaths comps)).getD p []) := by
    unfold calcRows normalize
    exact getD_map_total (normalizePath M) [] [] rfl _ p
  set l0 : List EquationRow :=
    (preNormalize M (canonicalOf comps) (calcPaths comps)).getD p [] with hl0
  set L7 : List EquationRow :=
    (((((pass_ha l0).map rowReVp).map (rowF M)).map rowDischargeA).map rowKred).map rowKtee
      |>.map rowKtotal with hL7
  have hpath2 : (calcRows M comps).getD p [] = pass9 (fixLastDeltaH L7) := hpath
  rw [hpath2] at h ⊢
  have hlen7 : L7.length = l0.length := by
    rw [hL7]
    simp [pass_ha_length]
  have hlen0 : 0 < l0.length := by
    rw [pass9_length, fixLastDeltaH_length, hlen7] at h
    omega
  constructor
  · rw [pass9_getD0]
    rw [fixLastDeltaH_proj (fun r => r.delta_P) (fun c v => rfl) L7 0]
    rw [hL7]
    rw [getD_map_lt rowKtotal dfltRow dfltRow _ 0 (by simp [pass_ha_length, hlen0]),
      rowKtotal_delta_P]
    rw [getD_map_lt rowKtee dfltRow dfltRow _ 0 (by simp [pass_ha_length, hlen0]),
      rowKtee_delta_P]
    rw [getD_map_lt rowKred dfltRow dfltRow _ 0 (by simp [pass_ha_length, hlen0]),
      rowKred_delta_P]
    rw [getD_map_lt rowDischargeA dfltRow dfltRow _ 0 (by simp [pass_ha_length, hlen0]),
      rowDischargeA_delta_P]
    rw [getD_map_lt (rowF M) dfltRow dfltRow _ 0 (by simp [pass_ha_length, hlen0]),
      rowF_delta_P]
    rw [getD_map_lt rowReVp dfltRow dfltRow _ 0 (by simp [pass_ha_length, hlen0]),
      rowReVp_delta_P]
    rw [pass_ha_getD0]
    -- the first row out of preNormalize always has delta_P = 0
    by_cases hip : 0 < ((calcPaths comps).getD p []).length
    · have : l0 = mapWithIndexGo (mkRow M (canonicalOf comps)) 0 ((calcPaths comps).getD p []) := by
        rw [hl0]
        unfold preNormalize
        exact getD_map_total _ [] [] rfl _ p
      rw [this, mapWithIndexGo_getD (mkRow M (canonicalOf comps)) dfltEC dfltRow _ 0 0 hip]
      rfl
    · exfalso
      have : l0.length = 0 := by
        rw [hl0]
        unfold preNormalize
        rw [getD_map_total _ ([] : List EquationsComponent) [] rfl _ p, mapWithIndexGo_length]
        omega
      omega
  · exact pass9_recurrence (fixLastDeltaH L7) i h

/-- Witness for C3 at the concrete input `[discharge, pipe, outlet]`, `i = 0`. -/
theorem delta_P_accumulation_witness :
    (0 + 1 < ((calcRows M0
        [{ component := CompKind.node, id := 0, type := some "discharge" },
         { component := CompKind.edge, id := 1, type := some "pipe" },
         { component := CompKind.node, id := 2, type := some "outlet", capacity := some 2 }]).getD
        0 []).length)
    ∧ ((((calcRows M0
        [{ component := CompKind.node, id := 0, type := some "discharge" },
         { component := CompKind.edge, id := 1, type := some "pipe" },
         { component := CompKind.node, id := 2, type := some "outlet", capacity := some 2 }]).getD
        0 []).getD 0 dfltRow).delta_P = 0) :=
  ⟨by decide,
    (delta_P_accumulation M0
      [{ component := CompKind.node, id := 0, type := some "discharge" },
       { component := CompKind.edge, id := 1, type := some "pipe" },
       { component := CompKind.node, id := 2, type := some "outlet", capacity := some 2 }]
      0 0 (by decide)).1⟩

lemma rowReVp_index (c : EquationRow) : (rowReVp c).index = c.index := rfl

lemma rowF_index (M : MathPrims) (c : EquationRow) : (rowF M c).index = c.index := by
  unfold rowF
  split_ifs <;> rfl

lemma rowDischargeA_index (c : EquationRow) : (rowDischargeA c).index = c.index := by
  unfold rowDischargeA
  split_ifs <;> rfl

lemma rowKred_index (c : EquationRow) : (rowKred c).index = c.index := by
  unfold rowKred
  split_ifs <;> rfl

lemma rowKtee_index (c : EquationRow) : (rowKtee c).index = c.index := by
  unfold rowKtee
  split_ifs <;> rfl

lemma rowKtotal_index (c : EquationRow) : (rowKtotal c).index = c.index := by
  unfold rowKtotal
  split_ifs <;> rfl

/-- C7: the row produced for a component carries that component's
stable draw index whenever the drawing surface assigned one — never the
component's position within the sliced path. -/
theorem row_index_stability (M : MathPrims) (comps : List EquationsComponent) (p i : ℕ)
    (n : Int) (hi : i < ((calcPaths comps).getD p []).length)
    (hc : (((calcPaths comps).getD p []).getD i dfltEC).draw_index = some n) :
    ((((calcRows M comps).getD p []).getD i dfltRow).index = n) := by
  have hpath : (calcRows M comps).getD p [] =
      normalizePath M ((preNormalize M (canonicalOf comps) (calcPaths comps)).getD p []) := by
    unfold calcRows normalize
    exact getD_map_total (normalizePath M) [] [] rfl _ p
  have hl0 : (preNormalize M (canonicalOf comps) (calcPaths comps)).getD p [] =
      mapWithIndexGo (mkRow M (canonicalOf comps)) 0 ((calcPaths comps).getD p []) := by
    unfold preNormalize
    exact getD_map_total _ [] [] rfl _ p
  set l0 : List EquationRow :=
    mapWithIndexGo (mkRow M (canonicalOf comps)) 0 ((calcPaths comps).getD p []) with hl0def
  have hlen0 : l0.length = ((calcPaths comps).getD p []).length := mapWithIndexGo_length _ _ _
  have hil0 : i < l0.length := by omega
  rw [hpath, hl0]
  show ((normalizePath M l0).getD i dfltRow).index = n
  unfold normalizePath
  rw [pass9_proj (fun r => r.index) (fun c v => rfl),
    fixLastDeltaH_proj (fun r => r.index) (fun c v => rfl)]
  rw [getD_map_lt rowKtotal dfltRow dfltRow _ i (by simp [pass_ha_length]; omega),
    rowKtotal_index]
  rw [getD_map_lt rowKtee dfltRow dfltRow _ i (by simp [pass_ha_length]; omega),
    rowKtee_index]
  rw [getD_map_lt rowKred dfltRow dfltRow _ i (by simp [pass_ha_length]; omega),
    rowKred_index]
  rw [getD_map_lt rowDischargeA dfltRow dfltRow _ i (by simp [pass_ha_length]; omega),
    rowDischargeA_index]
  rw [getD_map_lt (rowF M) dfltRow dfltRow _ i (by simp [pass_ha_length]; omega),
    rowF_index]
  rw [getD_map_lt rowReVp dfltRow dfltRow _ i (by simp [pass_ha_length]; omega),
    rowReVp_index]
  rw [pass_ha_proj (fun r => r.index) (fun c h' a' => rfl) l0 i]
  rw [hl0def, mapWithIndexGo_getD (mkRow M (canonicalOf comps)) dfltEC dfltRow _ 0 i hi]
  show (match ((((calcPaths comps).getD p []).getD i dfltEC)).draw_index with
    | some n => n
    | none => ((0 + i : ℕ) : Int) + 1) = n
  rw [hc]

/-- Witness for C7 at the concrete input `[discharge, pipe, outlet]`
with draw indices 7, 8, 9; the pipe's row keeps index 8. -/
theorem row_index_stability_witness :
    (1 < ((calcPaths
        [{ component := CompKind.node, id := 0, type := some "discharge", draw_index := some 7 },
         { component := CompKind.edge, id := 1, type := some "pipe", draw_index := some 8 },
         { component := CompKind.node, id := 2, type := some "outlet", capacity := some 2,
           draw_index := some 9 }]).getD 0 []).length)
    ∧ ((((calcRows M0
        [{ component := CompKind.node, id := 0, type := some "discharge", draw_index := some 7 },
         { component := CompKind.edge, id := 1, type := some "pipe", draw_index := some 8 },
         { component := CompKind.node, id := 2, type := some "outlet", capacity := some 2,
           draw_index := some 9 }]).getD 0 []).getD 1 dfltRow).index = 8) :=
  ⟨by decide,
    row_index_stability M0
      [{ component := CompKind.node, id := 0, type := some "discharge", draw_index := some 7 },
       { component := CompKind.edge, id := 1, type := some "pipe", draw_index := some 8 },
       { component := CompKind.node, id := 2, type := some "outlet", capacity := some 2,
         draw_index := some 9 }]
      0 1 8 (by decide) (by decide)⟩

lemma rowF_keep (M : MathPrims) (c : EquationRow) :
    (rowF M c).d = c.d ∧ (rowF M c).di = c.di ∧ (rowF M c).V = c.V ∧ (rowF M c).Re = c.Re
      ∧ (rowF M c).ktee = c.ktee := by
  unfold rowF
  split_ifs <;> exact ⟨rfl, rfl, rfl, rfl, rfl⟩

lemma rowDischargeA_keep (c : EquationRow) :
    (rowDischargeA c).d = c.d ∧ (rowDischargeA c).di = c.di ∧ (rowDischargeA c).V = c.V
      ∧ (rowDischargeA c).Re = c.Re ∧ (rowDischargeA c).f = c.f
      ∧ (rowDischargeA c).ktee = c.ktee := by
  unfold rowDischargeA
  split_ifs <;> exact ⟨rfl, rfl, rfl, rfl, rfl, rfl⟩

lemma rowKred_keep (c : EquationRow) :
    (rowKred c).d = c.d ∧ (rowKred c).di = c.di ∧ (rowKred c).V = c.V
      ∧ (rowKred c).Re = c.Re ∧ (rowKred c).f = c.f ∧ (rowKred c).ktee = c.ktee := by
  unfold rowKred
  split_ifs <;> exact ⟨rfl, rfl, rfl, rfl, rfl, rfl⟩

lemma rowKtee_keep (c : EquationRow) :
    (rowKtee c).d = c.d ∧ (rowKtee c).di = c.di ∧ (rowKtee c).V = c.V
      ∧ (rowKtee c).Re = c.Re ∧ (rowKtee c).f = c.f := by
  unfold rowKtee
  split_ifs <;> exact ⟨rfl, rfl, rfl, rfl, rfl⟩

lemma rowKtotal_keep (c : EquationRow) :
    (rowKtotal c).d = c.d ∧ (rowKtotal c).di = c.di ∧ (rowKtotal c).V = c.V
      ∧ (rowKtotal c).Re = c.Re ∧ (rowKtotal c).f = c.f ∧ (rowKtotal c).ktee = c.ktee := by
  unfold rowKtotal
  split_ifs <;> exact ⟨rfl, rfl, rfl, rfl, rfl, rfl⟩

lemma rowReVp_d (c : EquationRow) : (rowReVp c).d = c.d := rfl

lemma rowReVp_V (c : EquationRow) : (rowReVp c).V = c.V := rfl

lemma rowReVp_f (c : EquationRow) : (rowReVp c).f = c.f := rfl

lemma rowReVp_ktee (c : EquationRow) : (rowReVp c).ktee = c.ktee := rfl

lemma rowReVp_Re (c : EquationRow) :
    (rowReVp c).Re = if c.di = 0 then 0 else c.di * c.V / 0.000001 := rfl

/-- The friction guard: a zero nominal diameter short-circuits `f` to 0
(pipes), or keeps the initialized 0 (non-pipes). -/
lemma rowF_f_zero (M : MathPrims) (c : EquationRow) (hd : c.d = 0) (hf : c.f = 0) :
    (rowF M c).f = 0 := by
  unfold rowF
  by_cases h1 : c.item = "pipe"
  · rw [if_pos h1, if_neg]
    intro hcon
    rw [hd] at hcon
    exact absurd hcon.1 (lt_irrefl 0)
  · rw [if_neg h1]
    exact hf

/-- The tee-loss guard: `continue` on `d === 0` keeps `ktee` at its
initialized 0. -/
lemma rowKtee_ktee_zero (c : EquationRow) (hd : c.d = 0) (hktee : c.ktee = 0) :
    (rowKtee c).ktee = 0 := by
  unfold rowKtee
  by_cases h1 : c.item ≠ "" ∧ strStartsWith c.item "tee"
  · rw [if_pos h1, if_pos hd]
    exact hktee
  · rw [if_neg h1]
    exact hktee

set_option maxHeartbeats 1600000 in
/-- C2 (amended): for every produced row whose resolved diameter is 0,
the velocity `V`, Reynolds number `Re`, friction factor `f` and tee
loss `ktee` all evaluate to exactly 0 (the reducer loss `kred`, by
contrast, follows the area-ratio formula and is 0.51 when the area
ratio is 0 — see the counterexample). -/
theorem zero_diameter_safety (M : MathPrims) (comps : List EquationsComponent) (p i : ℕ)
    (hd : (((calcRows M comps).getD p []).getD i dfltRow).d = 0) :
    (((calcRows M comps).getD p []).getD i dfltRow).V = 0
    ∧ (((calcRows M comps).getD p []).getD i dfltRow).Re = 0
    ∧ (((calcRows M comps).getD p []).getD i dfltRow).f = 0
    ∧ (((calcRows M comps).getD p []).getD i dfltRow).ktee = 0 := by
  have hpath : (calcRows M comps).getD p [] =
      normalizePath M ((preNormalize M (canonicalOf comps) (calcPaths comps)).getD p []) := by
    unfold calcRows normalize
    exact getD_map_total (normalizePath M) [] [] rfl _ p
  have hl0 : (preNormalize M (canonicalOf comps) (calcPaths comps)).getD p [] =
      mapWithIndexGo (mkRow M (canonicalOf comps)) 0 ((calcPaths comps).getD p []) := by
    unfold preNormalize
    exact getD_map_total _ [] [] rfl _ p
  rw [hpath, hl0] at hd ⊢
  set l0 : List EquationRow :=
    mapWithIndexGo (mkRow M (canonicalOf comps)) 0 ((calcPaths comps).getD p []) with hl0def
  by_cases hip : i < l0.length
  case neg =>
    -- out of range: the default row already has every field equal to 0
    have hout : (normalizePath M l0).getD i dfltRow = dfltRow := by
      apply List.getD_eq_default
      rw [normalizePath_length]
      omega
    rw [hout]
    exact ⟨rfl, rfl, rfl, rfl⟩
  case pos =>
  have hiP : i < ((calcPaths comps).getD p []).length := by
    have h := hip
    rw [hl0def, mapWithIndexGo_length] at h
    exact h
  have hrow0 : l0.getD i dfltRow =
      mkRow M (canonicalOf comps) (0 + i) (((calcPaths comps).getD p []).getD i dfltEC) := by
    rw [hl0def]
    exact mapWithIndexGo_getD _ dfltEC dfltRow _ 0 i hiP
  -- stage rows
  have hb1 : i < (pass_ha l0).length := by rw [pass_ha_length]; omega
  have hr2 : (((pass_ha l0).map rowReVp).getD i dfltRow) = rowReVp ((pass_ha l0).getD i dfltRow) :=
    getD_map_lt rowReVp dfltRow dfltRow _ i hb1
  have hb2 : i < ((pass_ha l0).map rowReVp).length := by simp [pass_ha_length]; omega
  have hr3 : ((((pass_ha l0).map rowReVp).map (rowF M)).getD i dfltRow) =
      rowF M (((pass_ha l0).map rowReVp).getD i dfltRow) :=
    getD_map_lt (rowF M) dfltRow dfltRow _ i hb2
  have hb3 : i < (((pass_ha l0).map rowReVp).map (rowF M)).length := by
    simp [pass_ha_length]; omega
  have hr4 : (((((pass_ha l0).map rowReVp).map (rowF M)).map rowDischargeA).getD i dfltRow) =
      rowDischargeA ((((pass_ha l0).map rowReVp).map (rowF M)).getD i dfltRow) :=
    getD_map_lt rowDischargeA dfltRow dfltRow _ i hb3
  have hb4 : i < ((((pass_ha l0).map rowReVp).map (rowF M)).map rowDischargeA).length := by
    simp [pass_ha_length]; omega
  have hr5 : ((((((pass_ha l0).map rowReVp).map (rowF M)).map rowDischargeA).map rowKred).getD
      i dfltRow) =
      rowKred (((((pass_ha l0).map rowReVp).map (rowF M)).map rowDischargeA).getD i dfltRow) :=
    getD_map_lt rowKred dfltRow dfltRow _ i hb4
  have hb5 : i < (((((pass_ha l0).map rowReVp).map (rowF M)).map rowDischargeA).map
      rowKred).length := by
    simp [pass_ha_length]; omega
  have hr6 : (((((((pass_ha l0).map rowReVp).map (rowF M)).map rowDischargeA).map rowKred).map
      rowKtee).getD i dfltRow) =
      rowKtee ((((((pass_ha l0).map rowReVp).map (rowF M)).map rowDischargeA).map rowKred).getD
        i dfltRow) :=
    getD_map_lt rowKtee dfltRow dfltRow _ i hb5
  have hb6 : i < ((((((pass_ha l0).map rowReVp).map (rowF M)).map rowDischargeA).map
      rowKred).map rowKtee).length := by
    simp [pass_ha_length]; omega
  have hr7 : ((((((((pass_ha l0).map rowReVp).map (rowF M)).map rowDischargeA).map rowKred).map
      rowKtee).map rowKtotal).getD i dfltRow) =
      rowKtotal (((((((pass_ha l0).map rowReVp).map (rowF M)).map rowDischargeA).map
        rowKred).map rowKtee).getD i dfltRow) :=
    getD_map_lt rowKtotal dfltRow dfltRow _ i hb6
  -- the final row, through the two threaded passes
  have hfinal : ∀ {γ : Type} (φ : EquationRow → γ),
      (∀ c h' a', φ { c with h := h', a := a' } = φ c) →
      (∀ c v, φ { c with delta_H := v } = φ c) →
      (∀ c v, φ { c with delta_P := v } = φ c) →
      φ ((normalizePath M l0).getD i dfltRow) =
        φ (((((((((pass_ha l0).map rowReVp).map (rowF M)).map rowDischargeA).map rowKred).map
          rowKtee).map rowKtotal)).getD i dfltRow) := by
    intro γ φ hφ1 hφ2 hφ3
    unfold normalizePath
    rw [pass9_proj φ hφ3, fixLastDeltaH_proj φ hφ2]
  -- d chain (backwards, to get the pre-row diameter)
  have hd0 : (l0.getD i dfltRow).d = 0 := by
    rw [hfinal (fun r => r.d) (fun c h' a' => rfl) (fun c v => rfl) (fun c v => rfl)] at hd
    rw [hr7, (rowKtotal_keep _).1, hr6, (rowKtee_keep _).1, hr5, (rowKred_keep _).1,
      hr4, (rowDischargeA_keep _).1, hr3, (rowF_keep M _).1, hr2] at hd
    rw [rowReVp_d] at hd
    rw [pass_ha_proj (fun r => r.d) (fun c h' a' => rfl) l0 i] at hd
    exact hd
  have hdiam0 : (((calcPaths comps).getD p []).getD i dfltEC).diameter.getD 0 = 0 := by
    rw [hrow0] at hd0
    exact hd0
  have hgetDi0 : getDi 0 = 0 := by
    unfold getDi
    norm_num
  have hdi0 : (l0.getD i dfltRow).di = 0 := by
    rw [hrow0]
    show getDi ((((calcPaths comps).getD p []).getD i dfltEC).diameter.getD 0) = 0
    rw [hdiam0, hgetDi0]
  have hV0 : (l0.getD i dfltRow).V = 0 := by
    rw [hrow0]
    show getVelocity M ((((calcPaths comps).getD p []).getD i dfltEC).capacity.getD 0)
      (getDi ((((calcPaths comps).getD p []).getD i dfltEC).diameter.getD 0)) = 0
    rw [hdiam0, hgetDi0]
    unfold getVelocity
    simp
  have hf0 : (l0.getD i dfltRow).f = 0 := by rw [hrow0]; rfl
  have hktee0 : (l0.getD i dfltRow).ktee = 0 := by rw [hrow0]; rfl
  -- stage-1 row facts
  have hr1d : ((pass_ha l0).getD i dfltRow).d = 0 := by
    rw [pass_ha_proj (fun r => r.d) (fun c h' a' => rfl) l0 i]
    exact hd0
  have hr1di : ((pass_ha l0).getD i dfltRow).di = 0 := by
    rw [pass_ha_proj (fun r => r.di) (fun c h' a' => rfl) l0 i]
    exact hdi0
  have hr1V : ((pass_ha l0).getD i dfltRow).V = 0 := by
    rw [pass_ha_proj (fun r => r.V) (fun c h' a' => rfl) l0 i]
    exact hV0
  have hr1f : ((pass_ha l0).getD i dfltRow).f = 0 := by
    rw [pass_ha_proj (fun r => r.f) (fun c h' a' => rfl) l0 i]
    exact hf0
  have hr1ktee : ((pass_ha l0).getD i dfltRow).ktee = 0 := by
    rw [pass_ha_proj (fun r => r.ktee) (fun c h' a' => rfl) l0 i]
    exact hktee0
  -- stage-2 row facts (after Re/vp)
  have hr2d : (((pass_ha l0).map rowReVp).getD i dfltRow).d = 0 := by
    rw [hr2, rowReVp_d]; exact hr1d
  have hr2V : (((pass_ha l0).map rowReVp).getD i dfltRow).V = 0 := by
    rw [hr2, rowReVp_V]; exact hr1V
  have hr2Re : (((pass_ha l0).map rowReVp).getD i dfltRow).Re = 0 := by
    rw [hr2, rowReVp_Re, if_pos hr1di]
  have hr2f : (((pass_ha l0).map rowReVp).getD i dfltRow).f = 0 := by
    rw [hr2, rowReVp_f]; exact hr1f
  have hr2ktee : (((pass_ha l0).map rowReVp).getD i dfltRow).ktee = 0 := by
    rw [hr2, rowReVp_ktee]; exact hr1ktee
  -- stage-3 row facts (after friction)
  have hr3d : ((((pass_ha l0).map rowReVp).map (rowF M)).getD i dfltRow).d = 0 := by
    rw [hr3, (rowF_keep M _).1]; exact hr2d
  have hr3V : ((((pass_ha l0).map rowReVp).map (rowF M)).getD i dfltRow).V = 0 := by
    rw [hr3, (rowF_keep M _).2.2.1]; exact hr2V
  have hr3Re : ((((pass_ha l0).map rowReVp).map (rowF M)).getD i dfltRow).Re = 0 := by
    rw [hr3, (rowF_keep M _).2.2.2.1]; exact hr2Re
  have hr3f : ((((pass_ha l0).map rowReVp).map (rowF M)).getD i dfltRow).f = 0 := by
    rw [hr3]
    exact rowF_f_zero M _ hr2d hr2f
  have hr3ktee : ((((pass_ha l0).map rowReVp).map (rowF M)).getD i dfltRow).ktee = 0 := by
    rw [hr3, (rowF_keep M _).2.2.2.2]; exact hr2ktee
  -- stage-4 row facts (after discharge-a)
  have hr4d : (((((pass_ha l0).map rowReVp).map (rowF M)).map rowDischargeA).getD
      i dfltRow).d = 0 := by
    rw [hr4, (rowDischargeA_keep _).1]; exact hr3d
  have hr4V : (((((pass_ha l0).map rowReVp).map (rowF M)).map rowDischargeA).getD
      i dfltRow).V = 0 := by
    rw [hr4, (rowDischargeA_keep _).2.2.1]; exact hr3V
  have hr4Re : (((((pass_ha l0).map rowReVp).map (rowF M)).map rowDischargeA).getD
      i dfltRow).Re = 0 := by
    rw [hr4, (rowDischargeA_keep _).2.2.2.1]; exact hr3Re
  have hr4f : (((((pass_ha l0).map rowReVp).map (rowF M)).map rowDischargeA).getD
      i dfltRow).f = 0 := by
    rw [hr4, (rowDischargeA_keep _).2.2.2.2.1]; exact hr3f
  have hr4ktee : (((((pass_ha l0).map rowReVp).map (rowF M)).map rowDischargeA).getD
      i dfltRow).ktee = 0 := by
    rw [hr4, (rowDischargeA_keep _).2.2.2.2.2]; exact hr3ktee
  -- stage-5 row facts (after kred)
  have hr5d : ((((((pass_ha l0).map rowReVp).map (rowF M)).map rowDischargeA).map rowKred).getD
      i dfltRow).d = 0 := by
    rw [hr5, (rowKred_keep _).1]; exact hr4d
  have hr5V : ((((((pass_ha l0).map rowReVp).map (rowF M)).map rowDischargeA).map rowKred).getD
      i dfltRow).V = 0 := by
    rw [hr5, (rowKred_keep _).2.2.1]; exact hr4V
  have hr5Re : ((((((pass_ha l0).map rowReVp).map (rowF M)).map rowDischargeA).map rowKred).getD
      i dfltRow).Re = 0 := by
    rw [hr5, (rowKred_keep _).2.2.2.1]; exact hr4Re
  have hr5f : ((((((pass_ha l0).map rowReVp).map (rowF M)).map rowDischargeA).map rowKred).getD
      i dfltRow).f = 0 := by
    rw [hr5, (rowKred_keep _).2.2.2.2.1]; exact hr4f
  have hr5ktee : ((((((pass_ha l0).map rowReVp).map (rowF M)).map rowDischargeA).map
      rowKred).getD i dfltRow).ktee = 0 := by
    rw [hr5, (rowKred_keep _).2.2.2.2.2]; exact hr4ktee
  -- stage-6 row facts (after ktee)
  have hr6V : (((((((pass_ha l0).map rowReVp).map (rowF M)).map rowDischargeA).map rowKred).map
      rowKtee).getD i dfltRow).V = 0 := by
    rw [hr6, (rowKtee_keep _).2.2.1]; exact hr5V
  have hr6Re : (((((((pass_ha l0).map rowReVp).map (rowF M)).map rowDischargeA).map rowKred).map
      rowKtee).getD i dfltRow).Re = 0 := by
    rw [hr6, (rowKtee_keep _).2.2.2.1]; exact hr5Re
  have hr6f : (((((((pass_ha l0).map rowReVp).map (rowF M)).map rowDischargeA).map rowKred).map
      rowKtee).getD i dfltRow).f = 0 := by
    rw [hr6, (rowKtee_keep _).2.2.2.2]; exact hr5f
  have hr6ktee : (((((((pass_ha l0).map rowReVp).map (rowF M)).map rowDischargeA).map
      rowKred).map rowKtee).getD i dfltRow).ktee = 0 := by
    rw [hr6]
    exact rowKtee_ktee_zero _ hr5d hr5ktee
  -- stage-7 row facts (after ktotal)
  have hr7V : ((((((((pass_ha l0).map rowReVp).map (rowF M)).map rowDischargeA).map rowKred).map
      rowKtee).map rowKtotal).getD i dfltRow).V = 0 := by
    rw [hr7, (rowKtotal_keep _).2.2.1]; exact hr6V
  have hr7Re : ((((((((pass_ha l0).map rowReVp).map (rowF M)).map rowDischargeA).map
      rowKred).map rowKtee).map rowKtotal).getD i dfltRow).Re = 0 := by
    rw [hr7, (rowKtotal_keep _).2.2.2.1]; exact hr6Re
  have hr7f : ((((((((pass_ha l0).map rowReVp).map (rowF M)).map rowDischargeA).map
      rowKred).map rowKtee).map rowKtotal).getD i dfltRow).f = 0 := by
    rw [hr7, (rowKtotal_keep _).2.2.2.2.1]; exact hr6f
  have hr7ktee : ((((((((pass_ha l0).map rowReVp).map (rowF M)).map rowDischargeA).map
      rowKred).map rowKtee).map rowKtotal).getD i dfltRow).ktee = 0 := by
    rw [hr7, (rowKtotal_keep _).2.2.2.2.2]; exact hr6ktee
  refine ⟨?_, ?_, ?_, ?_⟩
  · rw [hfinal (fun r => r.V) (fun c h' a' => rfl) (fun c v => rfl) (fun c v => rfl)]
    exact hr7V
  · rw [hfinal (fun r => r.Re) (fun c h' a' => rfl) (fun c v => rfl) (fun c v => rfl)]
    exact hr7Re
  · rw [hfinal (fun r => r.f) (fun c h' a' => rfl) (fun c v => rfl) (fun c v => rfl)]
    exact hr7f
  · rw [hfinal (fun r => r.ktee) (fun c h' a' => rfl) (fun c v => rfl) (fun c v => rfl)]
    exact hr7ktee

lemma rowReVp_item (c : EquationRow) : (rowReVp c).item = c.item := rfl

lemma rowF_item (M : MathPrims) (c : EquationRow) : (rowF M c).item = c.item := by
  unfold rowF
  split_ifs <;> rfl

lemma rowDischargeA_item (c : EquationRow) : (rowDischargeA c).item = c.item := by
  unfold rowDischargeA
  split_ifs <;> rfl

lemma rowKred_item (c : EquationRow) : (rowKred c).item = c.item := by
  unfold rowKred
  split_ifs <;> rfl

lemma rowKtee_item (c : EquationRow) : (rowKtee c).item = c.item := by
  unfold rowKtee
  split_ifs <;> rfl

lemma rowKtotal_item (c : EquationRow) : (rowKtotal c).item = c.item := by
  unfold rowKtotal
  split_ifs <;> rfl

lemma rowReVp_a (c : EquationRow) : (rowReVp c).a = c.a := rfl

lemma rowF_a (M : MathPrims) (c : EquationRow) : (rowF M c).a = c.a := by
  unfold rowF
  split_ifs <;> rfl

lemma rowDischargeA_a_of_ne (c : EquationRow) (h : c.item ≠ "discharge") :
    (rowDischargeA c).a = c.a := by
  unfold rowDischargeA
  rw [if_neg h]

lemma rowKred_a (c : EquationRow) : (rowKred c).a = c.a := by
  unfold rowKred
  split_ifs <;> rfl

lemma rowKtee_a (c : EquationRow) : (rowKtee c).a = c.a := by
  unfold rowKtee
  split_ifs <;> rfl

lemma rowKtee_kred (c : EquationRow) : (rowKtee c).kred = c.kred := by
  unfold rowKtee
  split_ifs <;> rfl

lemma rowKtotal_a_of_ne (c : EquationRow) (h : c.item ≠ "discharge") :
    (rowKtotal c).a = c.a ∧ (rowKtotal c).kred = c.kred := by
  unfold rowKtotal
  rw [if_neg h]
  exact ⟨rfl, rfl⟩

/-- The reducer loss at area ratio 0 is `-0.513·0 + 0.51 = 0.51`. -/
lemma rowKred_kred_of_a_zero (c : EquationRow) (h : c.a = 0) : (rowKred c).kred = 0.51 := by
  unfold rowKred
  rw [if_neg (by rw [h]; norm_num), if_neg (by rw [h]; norm_num)]
  show -0.513 * c.a + 0.51 = 0.51
  rw [h]
  norm_num

/-- Shared helper for C10 (and the C2 counterexample): in an evaluated
path whose first row is not a discharge, the first row's area ratio
stays 0 (the area-ratio recurrence starts at index 1) and its reducer
loss coefficient is therefore `-0.513·0 + 0.51 = 0.51`. -/
lemma head_row_values (M : MathPrims) (comps : List EquationsComponent) (p : ℕ)
    (hlen : 0 < ((calcRows M comps).getD p []).length)
    (hitem : (((calcRows M comps).getD p []).getD 0 dfltRow).item ≠ "discharge") :
    (((calcRows M comps).getD p []).getD 0 dfltRow).a = 0
    ∧ (((calcRows M comps).getD p []).getD 0 dfltRow).kred = 0.51 := by
  have hpath : (calcRows M comps).getD p [] =
      normalizePath M ((preNormalize M (canonicalOf comps) (calcPaths comps)).getD p []) := by
    unfold calcRows normalize
    exact getD_map_total (normalizePath M) [] [] rfl _ p
  rw [hpath] at hlen hitem ⊢
  set l0 : List EquationRow :=
    (preNormalize M (canonicalOf comps) (calcPaths comps)).getD p [] with hl0def
  have hlen0 : 0 < l0.length := by
    rw [normalizePath_length] at hlen
    exact hlen
  have hfinal : ∀ {γ : Type} (φ : EquationRow → γ),
      (∀ c v, φ { c with delta_H := v } = φ c) →
      (∀ c v, φ { c with delta_P := v } = φ c) →
      φ ((normalizePath M l0).getD 0 dfltRow) =
        φ (((((((((pass_ha l0).map rowReVp).map (rowF M)).map rowDischargeA).map rowKred).map
          rowKtee).map rowKtotal)).getD 0 dfltRow) := by
    intro γ φ hφ2 hφ3
    unfold normalizePath
    rw [pass9_proj φ hφ3, fixLastDeltaH_proj φ hφ2]
  have hb1 : 0 < (pass_ha l0).length := by rw [pass_ha_length]; omega
  have hr2 : (((pass_ha l0).map rowReVp).getD 0 dfltRow) = rowReVp ((pass_ha l0).getD 0 dfltRow) :=
    getD_map_lt rowReVp dfltRow dfltRow _ 0 hb1
  have hb2 : 0 < ((pass_ha l0).map rowReVp).length := by simp [pass_ha_length]; omega
  have hr3 : ((((pass_ha l0).map rowReVp).map (rowF M)).getD 0 dfltRow) =
      rowF M (((pass_ha l0).map rowReVp).getD 0 dfltRow) :=
    getD_map_lt (rowF M) dfltRow dfltRow _ 0 hb2
  have hb3 : 0 < (((pass_ha l0).map rowReVp).map (rowF M)).length := by
    simp [pass_ha_length]; omega
  have hr4 : (((((pass_ha l0).map rowReVp).map (rowF M)).map rowDischargeA).getD 0 dfltRow) =
      rowDischargeA ((((pass_ha l0).map rowReVp).map (rowF M)).getD 0 dfltRow) :=
    getD_map_lt rowDischargeA dfltRow dfltRow _ 0 hb3
  have hb4 : 0 < ((((pass_ha l0).map rowReVp).map (rowF M)).map rowDischargeA).length := by
    simp [pass_ha_length]; omega
  have hr5 : ((((((pass_ha l0).map rowReVp).map (rowF M)).map rowDischargeA).map rowKred).getD
      0 dfltRow) =
      rowKred (((((pass_ha l0).map rowReVp).map (rowF M)).map rowDischargeA).getD 0 dfltRow) :=
    getD_map_lt rowKred dfltRow dfltRow _ 0 hb4
  have hb5 : 0 < (((((pass_ha l0).map rowReVp).map (rowF M)).map rowDischargeA).map
      rowKred).length := by
    simp [pass_ha_length]; omega
  have hr6 : (((((((pass_ha l0).map rowReVp).map (rowF M)).map rowDischargeA).map rowKred).map
      rowKtee).getD 0 dfltRow) =
      rowKtee ((((((pass_ha l0).map rowReVp).map (rowF M)).map rowDischargeA).map rowKred).getD
        0 dfltRow) :=
    getD_map_lt rowKtee dfltRow dfltRow _ 0 hb5
  have hb6 : 0 < ((((((pass_ha l0).map rowReVp).map (rowF M)).map rowDischargeA).map
      rowKred).map rowKtee).length := by
    simp [pass_ha_length]; omega
  have hr7 : ((((((((pass_ha l0).map rowReVp).map (rowF M)).map rowDischargeA).map rowKred).map
      rowKtee).map rowKtotal).getD 0 dfltRow) =
      rowKtotal (((((((pass_ha l0).map rowReVp).map (rowF M)).map rowDischargeA).map
        rowKred).map rowKtee).getD 0 dfltRow) :=
    getD_map_lt rowKtotal dfltRow dfltRow _ 0 hb6
  -- the items at stages 4 and 6 coincide with the final (non-discharge) item
  have hitem7 := hitem
  rw [hfinal (fun r => r.item) (fun c v => rfl) (fun c v => rfl)] at hitem7
  have hitem6 : (((((((pass_ha l0).map rowReVp).map (rowF M)).map rowDischargeA).map
      rowKred).map rowKtee).getD 0 dfltRow).item ≠ "discharge" := by
    rw [hr7, rowKtotal_item] at hitem7
    exact hitem7
  have hitem4 : (((((pass_ha l0).map rowReVp).map (rowF M)).map rowDischargeA).getD
      0 dfltRow).item ≠ "discharge" := by
    rw [hr6, rowKtee_item, hr5, rowKred_item] at hitem6
    exact hitem6
  have hitem3 : ((((pass_ha l0).map rowReVp).map (rowF M)).getD 0 dfltRow).item
      ≠ "discharge" := by
    rw [hr4, rowDischargeA_item] at hitem4
    exact hitem4
  -- the pre-row area ratio is 0 (preNormalize initializes it so)
  have ha0 : (l0.getD 0 dfltRow).a = 0 := by
    by_cases hip : 0 < ((calcPaths comps).getD p []).length
    · have hl0eq : l0 = mapWithIndexGo (mkRow M (canonicalOf comps)) 0
          ((calcPaths comps).getD p []) := by
        rw [hl0def]
        unfold preNormalize
        exact getD_map_total _ [] [] rfl _ p
      rw [hl0eq, mapWithIndexGo_getD (mkRow M (canonicalOf comps)) dfltEC dfltRow _ 0 0 hip]
      rfl
    · exfalso
      have hl0eq : l0 = mapWithIndexGo (mkRow M (canonicalOf comps)) 0
          ((calcPaths comps).getD p []) := by
        rw [hl0def]
        unfold preNormalize
        exact getD_map_total _ [] [] rfl _ p
      have := mapWithIndexGo_length (mkRow M (canonicalOf comps)) ((calcPaths comps).getD p []) 0
      rw [hl0eq] at hlen0
      omega
  -- area ratio stays 0 up to the kred pass
  have ha4 : (((((pass_ha l0).map rowReVp).map (rowF M)).map rowDischargeA).getD
      0 dfltRow).a = 0 := by
    rw [hr4, rowDischargeA_a_of_ne _ hitem3, hr3, rowF_a, hr2, rowReVp_a, pass_ha_getD0]
    exact ha0
  have hkred5 : ((((((pass_ha l0).map rowReVp).map (rowF M)).map rowDischargeA).map
      rowKred).getD 0 dfltRow).kred = 0.51 := by
    rw [hr5]
    exact rowKred_kred_of_a_zero _ ha4
  have ha5 : ((((((pass_ha l0).map rowReVp).map (rowF M)).map rowDischargeA).map
      rowKred).getD 0 dfltRow).a = 0 := by
    rw [hr5, rowKred_a]
    exact ha4
  constructor
  · rw [hfinal (fun r => r.a) (fun c v => rfl) (fun c v => rfl)]
    rw [hr7, (rowKtotal_a_of_ne _ hitem6).1, hr6, rowKtee_a]
    exact ha5
  · rw [hfinal (fun r => r.kred) (fun c v => rfl) (fun c v => rfl)]
    rw [hr7, (rowKtotal_a_of_ne _ hitem6).2, hr6, rowKtee_kred]
    exact hkred5

/-- Counterexample for C2 as stated: at the concrete one-component
input `[outlet(2)]` (resolved diameter 0, evaluated through the
missing-discharge fallback), the produced row has `d = 0` yet its
reducer loss coefficient is `kred = -0.513·0 + 0.51 = 0.51 ≠ 0` (its
area ratio stays 0), so "`V`, `Re`, `f`, `kred`, `ktee` all evaluate to
0" fails for `kred`. -/
theorem zero_diameter_kred_counterexample :
    ((((calcRows M0
        [{ component := CompKind.node, id := 0, type := some "outlet",
           capacity := some 2 }]).getD 0 []).getD 0 dfltRow).d = 0)
    ∧ ((((calcRows M0
        [{ component := CompKind.node, id := 0, type := some "outlet",
           capacity := some 2 }]).getD 0 []).getD 0 dfltRow).kred ≠ 0) := by
  constructor
  · decide
  · have h := head_row_values M0
      [{ component := CompKind.node, id := 0, type := some "outlet", capacity := some 2 }]
      0 (by decide) (by decide)
    rw [h.2]
    norm_num

/-- Witness for the amended C2 at the concrete input `[outlet(3)]`. -/
theorem zero_diameter_safety_witness :
    (((calcRows M0
        [{ component := CompKind.node, id := 5, type := some "outlet",
           capacity := some 3 }]).getD 0 []).getD 0 dfltRow).d = 0
    ∧ ((((calcRows M0
        [{ component := CompKind.node, id := 5, type := some "outlet",
           capacity := some 3 }]).getD 0 []).getD 0 dfltRow).V = 0
      ∧ (((calcRows M0
        [{ component := CompKind.node, id := 5, type := some "outlet",
           capacity := some 3 }]).getD 0 []).getD 0 dfltRow).Re = 0
      ∧ (((calcRows M0
        [{ component := CompKind.node, id := 5, type := some "outlet",
           capacity := some 3 }]).getD 0 []).getD 0 dfltRow).f = 0
      ∧ (((calcRows M0
        [{ component := CompKind.node, id := 5, type := some "outlet",
           capacity := some 3 }]).getD 0 []).getD 0 dfltRow).ktee = 0) :=
  ⟨by decide,
    zero_diameter_safety M0
      [{ component := CompKind.node, id := 5, type := some "outlet", capacity := some 3 }]
      0 0 (by decide)⟩

/-- C10: in every evaluated path whose first row is not a discharge
(for example the missing-discharge fallback path), the first row's
area ratio `a` stays 0 and consequently its reducer loss coefficient is
`kred = -0.513·0 + 0.51 = 0.51`, regardless of any diameters. -/
theorem first_row_loss_default (M : MathPrims) (comps : List EquationsComponent) (p : ℕ)
    (hlen : 0 < ((calcRows M comps).getD p []).length)
    (hitem : (((calcRows M comps).getD p []).getD 0 dfltRow).item ≠ "discharge") :
    (((calcRows M comps).getD p []).getD 0 dfltRow).a = 0
    ∧ (((calcRows M comps).getD p []).getD 0 dfltRow).kred = 0.51 :=
  head_row_values M comps p hlen hitem

/-- Witness for C10 at the concrete dischargeless input `[outlet(4)]`. -/
theorem first_row_loss_default_witness :
    (0 < ((calcRows M0
        [{ component := CompKind.node, id := 1, type := some "outlet",
           capacity := some 4 }]).getD 0 []).length)
    ∧ ((((calcRows M0
        [{ component := CompKind.node, id := 1, type := some "outlet",
           capacity := some 4 }]).getD 0 []).getD 0 dfltRow).a = 0
      ∧ (((calcRows M0
        [{ component := CompKind.node, id := 1, type := some "outlet",
           capacity := some 4 }]).getD 0 []).getD 0 dfltRow).kred = 0.51) :=
  ⟨by decide,
    first_row_loss_default M0
      [{ component := CompKind.node, id := 1, type := some "outlet", capacity := some 4 }]
      0 (by decide) (by decide)⟩

end Calculations
